import Mathlib

/-! Event subscription and streaming bridge of `dots/grpc/binary.go`.

A shallow embedding of `BinaryGrpcServer.SubscribeEvent`, `UnSubscribeEvent` and
`RecvEvents` together with the values they work on.

* A Go value of type `error` is a `GoError`; a possibly-nil error is an `Option GoError`.
* A buffered Go channel is a `Chan`: its capacity and the queue of buffered events, oldest
  first.  A channel operation that cannot proceed yields `none`.
* `sync.Map` is an association list from keys to channel references; a channel reference is
  an index into the list `chans` of all channels the server has made.
* The collaborators (`Subscriber`, the gRPC stream, `json.Marshal`, `common.HexToAddress`,
  the clock) are parameters.
* `make(ChanEvent, n)` panics on a capacity that is out of range; the deferred `recover` of
  `RecvEvents` then makes the call return nil.
* The `for`/`select` loop of `RecvEvents` is run one iteration at a time by `recvIter`;
  `recvLoop n` runs `n` iterations.  The producers that share the channel with the loop
  (the callbacks registered by `SubscribeEvent`) write into it between the dequeue of an
  event and the `ce <- e` that puts it back after a failed send.
-/

namespace Dp

/-! ## Errors, events, wire events -/

/-- A non-nil Go `error`; `msg` is what `Error()` returns. -/
structure GoError where
  msg : String
deriving DecidableEq, Repr

/-- The Go function `errors.New`. -/
def errors.New (text : String) : GoError := ⟨text⟩

/-- Stand-in for `common.Address`. -/
abbrev Address := Nat

/-- Stand-in for `common.Hash`. -/
abbrev Hash := Nat

/-- Stand-in for the payload type of an event. -/
abbrev EventData := List (String × String)

/-- Modelled from the spec: the struct `event.Event` of package `dots/eth/event`, whose
declaration is not part of the sources. The spec lists its fields as EventName,
ContractAddress, TxHash, BlockNumber and Data; the field names are the ones `binary.go`
reads. The zero value has every field zero. -/
structure Event where
  BlockNumber : Nat
  TxHash : Hash
  Address : Address
  Name : String
  Data : EventData
deriving DecidableEq, Repr

/-- The zero value of `event.Event`. -/
def Event.zero : Event :=
  { BlockNumber := 0, TxHash := 0, Address := 0, Name := "", Data := [] }

/-- The wire event `api.Event`. -/
structure ProtoEvent where
  Time : Int
  JsonData : String
deriving DecidableEq, Repr

/-- A value stored in the `map[string]interface{}` that `makeProtoEvent` marshals. -/
inductive JsonArg where
  | num (n : Nat)
  | str (s : String)
deriving DecidableEq, Repr

/-- Library functions used by `binary.go`, and `MakeLimit`, the largest capacity for which
the runtime makes a `ChanEvent` (it depends on the platform and on the size of an event). -/
structure Libs where
  HexToAddress : String → Address
  AddressString : Address → String
  HashString : Hash → String
  DataString : EventData → String
  Marshal : List (String × JsonArg) → Except GoError String
  MakeLimit : Nat

/-- The function `makeChannelCreatedEvent`. -/
def makeChannelCreatedEvent : Event :=
  { Event.zero with Name := "ChannelCreated" }

/-- The function `makeProtoEvent`; `now` is the value of `time.Now().Unix()`. -/
def makeProtoEvent (L : Libs) (now : Int) (e : Event) : Except GoError ProtoEvent :=
  let obj : List (String × JsonArg) :=
    [ ("BlockNumber", .num e.BlockNumber),
      ("ContractAddress", .str (L.AddressString e.Address)),
      ("EventName", .str e.Name),
      ("TxHash", .str (L.HashString e.TxHash)),
      ("EventData", .str (L.DataString e.Data)) ]
  match L.Marshal obj with
  | .error err => .error err
  | .ok jsonEvent => .ok { Time := now, JsonData := jsonEvent }

/-! ## Constants -/

/-- The constant `ScanEventInterval`, commented `//milli seconds` in the source. -/
def ScanEventInterval : Nat := 200

/-- The constant `time.Nanosecond` of the Go library: a `Duration` counts nanoseconds. -/
def time.Nanosecond : Nat := 1

/-- The constant `time.Microsecond` of the Go library. -/
def time.Microsecond : Nat := 1000 * time.Nanosecond

/-- The constant `time.Millisecond` of the Go library. -/
def time.Millisecond : Nat := 1000 * time.Microsecond

/-- The argument of `time.After` in the loop of `RecvEvents`, in nanoseconds. -/
def idleTick : Nat := time.Microsecond * ScanEventInterval

/-! ## Channels -/

/-- A value of type `ChanEvent`: a Go channel of capacity `cap` whose buffer holds `buf`,
oldest event first. -/
structure Chan where
  cap : Nat
  buf : List Event
deriving DecidableEq, Repr

/-- The channel that `make(ChanEvent, n)` returns when it returns one. -/
def Chan.make (n : Nat) : Chan := { cap := n, buf := [] }

/-- The Go expression `make(ChanEvent, n)` for `n` of type `uint64`: `none` when it panics
with `makechan: size out of range`, which it does when `n` does not fit the type `int`
(from 2^63 on) or exceeds `limit`, the largest capacity the runtime makes. -/
def Chan.tryMake (limit : Nat) (n : Nat) : Option Chan :=
  if n < 9223372036854775808 ∧ n ≤ limit then some (Chan.make n) else none

/-- A channel never buffers more than its capacity. -/
def Chan.WF (ch : Chan) : Prop := ch.buf.length ≤ ch.cap

instance (ch : Chan) : Decidable ch.WF := by
  unfold Chan.WF; infer_instance

/-- The statement `ch <- e` with no receiver waiting: appends to the buffer when there is
room; `none` when the buffer is full, where the sender blocks. -/
def Chan.send (ch : Chan) (e : Event) : Option Chan :=
  if ch.buf.length < ch.cap then some { ch with buf := ch.buf ++ [e] } else none

/-- The expression `<-ch`: takes the oldest buffered event; `none` when the buffer is
empty. -/
def Chan.recv (ch : Chan) : Option (Event × Chan) :=
  match ch.buf with
  | [] => none
  | e :: rest => some (e, { ch with buf := rest })

/-- Producers run `ch <- e` for the events of the list, in the order in which they get a
slot: each send completes while there is room; once the buffer is full the remaining
producers stay blocked and nothing more is added. -/
def Chan.offer (ch : Chan) : List Event → Chan
  | [] => ch
  | e :: es =>
    match ch.send e with
    | some ch1 => ch1.offer es
    | none => ch

/-! ## The server -/

/-- The struct `binaryGrpcServerConfig`. -/
structure binaryGrpcServerConfig where
  EventChanCapacity : Nat
deriving DecidableEq, Repr

/-- The struct `BinaryGrpcServer`: `eventChanMap` maps a client address to a channel
reference, and reference `r` denotes the channel `chans[r]`. -/
structure BinaryGrpcServer where
  config : binaryGrpcServerConfig
  eventChanMap : List (String × Nat)
  chans : List Chan
deriving DecidableEq, Repr

/-- The method `sync.Map.Load`. -/
def syncMapLoad (m : List (String × Nat)) (key : String) : Option Nat :=
  match m with
  | [] => none
  | (k, v) :: rest => if k = key then some v else syncMapLoad rest key

/-- The method `sync.Map.Store`: replaces the value of a present key, adds an absent one. -/
def syncMapStore (m : List (String × Nat)) (key : String) (val : Nat) : List (String × Nat) :=
  match m with
  | [] => [(key, val)]
  | (k, v) :: rest =>
    if k = key then (k, val) :: rest else (k, v) :: syncMapStore rest key val

/-- The call `c.eventChanMap.Load(key)`. -/
def BinaryGrpcServer.Load (c : BinaryGrpcServer) (key : String) : Option Nat :=
  syncMapLoad c.eventChanMap key

/-- The channel a reference denotes. -/
def BinaryGrpcServer.chanAt (c : BinaryGrpcServer) (r : Nat) : Option Chan :=
  c.chans[r]?

/-- The server after the channel behind reference `r` became `ch`. -/
def BinaryGrpcServer.setChan (c : BinaryGrpcServer) (r : Nat) (ch : Chan) : BinaryGrpcServer :=
  { c with chans := c.chans.set r ch }

/-- The server as `newBinaryGrpcServerDot` returns it: no channel yet. -/
def BinaryGrpcServer.new (conf : binaryGrpcServerConfig) : BinaryGrpcServer :=
  { config := conf, eventChanMap := [], chans := [] }

/-- The get-or-create step of `RecvEvents` (the `if rv, ok := Load(...); !ok` statement):
the server afterwards and the reference held by `ce`; `none` when `make` panics, which is
before the call of `Store`. -/
def getOrCreate (limit : Nat) (c : BinaryGrpcServer) (address : String) :
    Option (BinaryGrpcServer × Nat) :=
  match c.Load address with
  | none =>
    match Chan.tryMake limit c.config.EventChanCapacity with
    | none => none
    | some ch =>
      let ce := c.chans.length
      some ({ c with chans := c.chans ++ [ch],
                     eventChanMap := syncMapStore c.eventChanMap address ce }, ce)
  | some rv => some (c, rv)

/-- The two atomic accesses of the shared map that one caller of `RecvEvents` makes in its
get-or-create: where a caller stands. A caller whose `make` panicked has left `RecvEvents`
through the deferred `recover`. -/
inductive OpenPc where
  | atLoad
  | atStore
  | holds (ce : Nat)
  | panicked
deriving DecidableEq, Repr

/-- One atomic step of a caller of the get-or-create: at `atLoad` the call of `Load`, at
`atStore` (after a `Load` that found nothing) `make` and the call of `Store`. -/
def openStep (limit : Nat) (address : String) (c : BinaryGrpcServer) (pc : OpenPc) :
    BinaryGrpcServer × OpenPc :=
  match pc with
  | .atLoad =>
    match c.Load address with
    | none => (c, .atStore)
    | some rv => (c, .holds rv)
  | .atStore =>
    match Chan.tryMake limit c.config.EventChanCapacity with
    | none => (c, .panicked)
    | some ch =>
      let ce := c.chans.length
      ({ c with chans := c.chans ++ [ch],
                eventChanMap := syncMapStore c.eventChanMap address ce }, .holds ce)
  | .holds ce => (c, .holds ce)
  | .panicked => (c, .panicked)

/-- Callers of the get-or-create for one address, run under a schedule: each entry of the
schedule names the caller that makes its next atomic step. -/
def openRun (limit : Nat) (address : String) :
    List Nat → BinaryGrpcServer × List OpenPc → BinaryGrpcServer × List OpenPc
  | [], s => s
  | i :: sched, (c, pcs) =>
    match pcs[i]? with
    | none => openRun limit address sched (c, pcs)
    | some pc =>
      let (c1, pc1) := openStep limit address c pc
      openRun limit address sched (c1, pcs.set i pc1)

/-! ## `SubscribeEvent` and `UnSubscribeEvent` -/

/-- The struct `api.Result`. -/
structure Result where
  Success : Bool
  ErrMsg : String
deriving DecidableEq, Repr

/-- The function `makeResult`. -/
def makeResult (s : Bool) (e : String) : Result := { Success := s, ErrMsg := e }

/-- The message `api.SubscribeInfo`. -/
structure SubscribeInfo where
  Address : String
  Event : List String
deriving DecidableEq, Repr

/-- The getter `GetAddress`, which a nil message answers with the empty string. -/
def SubscribeInfo.GetAddress : Option SubscribeInfo → String
  | none => ""
  | some info => info.Address

/-- The getter `GetEvent`, which a nil message answers with the empty list. -/
def SubscribeInfo.GetEvent : Option SubscribeInfo → List String
  | none => []
  | some info => info.Event

/-- The collaborator `subscribe.Subscribe` over its own state `σ`. The callback that
`SubscribeEvent` hands over is the closure that writes into the channel `ce`, so it is
passed as that channel reference. -/
structure Subscriber (σ : Type) where
  Subscribe : σ → Address → String → Nat → Option GoError × σ
  UnSubscribe : σ → Address → String → Option GoError × σ

/-- One call of `Subscriber.Subscribe` or `Subscriber.UnSubscribe`, with what it returned;
`ce` is the channel of the callback (`none` for `UnSubscribe`). -/
structure SubCall where
  addr : Address
  ev : String
  ce : Option Nat
  result : Option GoError
deriving DecidableEq, Repr

/-- What a call of `SubscribeEvent` or `UnSubscribeEvent` leaves behind: the two returned
values, the subscriber's state and the calls made to the subscriber, in order. -/
structure Reply (σ : Type) where
  rs : Result
  err : Option GoError
  sub : σ
  calls : List SubCall

/-- The `for _, ev := range info.GetEvent()` loop of `SubscribeEvent`. -/
def subscribeLoop {σ : Type} (S : Subscriber σ) (addr : Address) (ce : Nat) (rs : Result) :
    List String → σ → List SubCall → Reply σ
  | [], st, calls => { rs := rs, err := none, sub := st, calls := calls }
  | ev :: evs, st, calls =>
    match S.Subscribe st addr ev ce with
    | (some err, st1) =>
      { rs := { rs with ErrMsg := err.msg }, err := some err, sub := st1,
        calls := calls ++ [{ addr := addr, ev := ev, ce := some ce, result := some err }] }
    | (none, st1) =>
      subscribeLoop S addr ce rs evs st1
        (calls ++ [{ addr := addr, ev := ev, ce := some ce, result := none }])

/-- The method `BinaryGrpcServer.SubscribeEvent`. -/
def SubscribeEvent {σ : Type} (L : Libs) (S : Subscriber σ) (c : BinaryGrpcServer)
    (info : Option SubscribeInfo) (st : σ) : Reply σ :=
  let rs := makeResult true ""
  let hexAddr := SubscribeInfo.GetAddress info
  if hexAddr = "" then
    let errMsg := "client address can not be empty"
    { rs := { rs with ErrMsg := errMsg }, err := some (errors.New errMsg), sub := st,
      calls := [] }
  else
    match c.Load hexAddr with
    | none =>
      let errMsg := "failed to subscribe event since no server streaming channel found"
      { rs := { rs with ErrMsg := errMsg }, err := some (errors.New errMsg), sub := st,
        calls := [] }
    | some ce =>
      let addr := L.HexToAddress (SubscribeInfo.GetAddress info)
      subscribeLoop S addr ce rs (SubscribeInfo.GetEvent info) st []

/-- The body of the callback that `SubscribeEvent` registers: `ce <- event; return true`.
`none` when the channel is full (or the reference denotes no channel), where the calling
producer blocks. -/
def subscribeCallback (c : BinaryGrpcServer) (ce : Nat) (event : Event) :
    Option (BinaryGrpcServer × Bool) :=
  match c.chanAt ce with
  | none => none
  | some ch =>
    match ch.send event with
    | none => none
    | some ch1 => some (c.setChan ce ch1, true)

/-- The `for _, ev := range info.GetEvent()` loop of `UnSubscribeEvent`. -/
def unSubscribeLoop {σ : Type} (S : Subscriber σ) (addr : Address) :
    List String → σ → List SubCall → σ × List SubCall
  | [], st, calls => (st, calls)
  | ev :: evs, st, calls =>
    match S.UnSubscribe st addr ev with
    | (err, st1) =>
      unSubscribeLoop S addr evs st1
        (calls ++ [{ addr := addr, ev := ev, ce := none, result := err }])

/-- The method `BinaryGrpcServer.UnSubscribeEvent`. -/
def UnSubscribeEvent {σ : Type} (L : Libs) (S : Subscriber σ)
    (info : Option SubscribeInfo) (st : σ) : Reply σ :=
  let rs := makeResult true ""
  let hexAddr := SubscribeInfo.GetAddress info
  if hexAddr = "" then
    let errMsg := "client address can not be empty"
    { rs := { rs with ErrMsg := errMsg }, err := some (errors.New errMsg), sub := st,
      calls := [] }
  else
    let addr := L.HexToAddress (SubscribeInfo.GetAddress info)
    match unSubscribeLoop S addr (SubscribeInfo.GetEvent info) st [] with
    | (st1, calls) => { rs := rs, err := none, sub := st1, calls := calls }

/-! ## `RecvEvents` -/

/-- The message `api.ClientInfo`. -/
structure ClientInfo where
  Address : String
deriving DecidableEq, Repr

/-- The stream `srv` of a session, the clock and the producers, over the state `τ` of the
outside world. `Produce w` lists the events that the callbacks registered by
`SubscribeEvent` (`ce <- event`) write, or wait to write, into the channel of the session
between the dequeue of an event in world `w` and the `ce <- e` that puts the event back
after a failed send, in the order in which they get a slot. -/
structure Transport (τ : Type) where
  Send : τ → ProtoEvent → Option GoError × τ
  Now : τ → Int
  Produce : τ → List Event

/-- One call of `srv.Send`: the event that was dequeued, its encoding, the returned error. -/
structure SendCall where
  event : Event
  wire : ProtoEvent
  result : Option GoError
deriving DecidableEq, Repr

/-- Where a call of `RecvEvents` stands: still in its loop, returned with an error,
blocked for good in a channel send that nothing can complete, or returned nil because the
deferred `recover` caught a panic. -/
inductive Status where
  | running
  | returned (err : GoError)
  | blocked
  | recovered
deriving DecidableEq, Repr

/-- The state of the `for`/`select` loop of `RecvEvents`: the channel `ce`, the outside
world, and the calls of `srv.Send` made so far. -/
structure Loop (τ : Type) where
  ce : Chan
  world : τ
  sends : List SendCall
  status : Status

/-- One iteration of the loop of `RecvEvents`. The `select` takes the channel case when an
event is buffered and the `time.After` case, which does nothing, when none is. When
`srv.Send` fails, the producers have written into the channel before `ce <- e` runs; if
they have filled it, that send blocks and, the loop being the only consumer, stays
blocked. What producers write at other moments only lengthens the buffer that a later
iteration starts from, and the iteration is defined for every such buffer. -/
def recvIter {τ : Type} (L : Libs) (T : Transport τ) (s : Loop τ) : Loop τ :=
  match s.status with
  | .running =>
    match s.ce.recv with
    | none => s
    | some (e, ce1) =>
      match makeProtoEvent L (T.Now s.world) e with
      | .error _ => { s with ce := ce1 }
      | .ok ev =>
        match T.Send s.world ev with
        | (none, w1) =>
          { s with ce := ce1, world := w1,
                   sends := s.sends ++ [{ event := e, wire := ev, result := none }] }
        | (some err, w1) =>
          let sends1 := s.sends ++ [{ event := e, wire := ev, result := some err }]
          let ce2 := ce1.offer (T.Produce s.world)
          match ce2.send e with
          | some ce3 => { ce := ce3, world := w1, sends := sends1, status := .returned err }
          | none => { ce := ce2, world := w1, sends := sends1, status := .blocked }
  | _ => s

/-- The loop of `RecvEvents`, run for `n` iterations. -/
def recvLoop {τ : Type} (L : Libs) (T : Transport τ) : Nat → Loop τ → Loop τ
  | 0, s => s
  | n + 1, s => recvLoop L T n (recvIter L T s)

/-- What a call of `RecvEvents` leaves behind. -/
structure Session (τ : Type) where
  srv : BinaryGrpcServer
  world : τ
  sends : List SendCall
  status : Status

/-- The method `BinaryGrpcServer.RecvEvents`, its loop run for `fuel` iterations. When
`make` panics, the deferred `recover` logs the panic and the method returns nil, the
registry as it was. A reference that denotes no channel is treated like a nil channel, on
which a send blocks; no reference made by `getOrCreate` is such. -/
def RecvEvents {τ : Type} (L : Libs) (T : Transport τ) (fuel : Nat) (c : BinaryGrpcServer)
    (client : Option ClientInfo) (w : τ) : Session τ :=
  let invalid : Session τ :=
    { srv := c, world := w, sends := [],
      status := .returned (errors.New "client address can not be empty") }
  match client with
  | none => invalid
  | some cl =>
    if cl.Address = "" then invalid
    else
      match getOrCreate L.MakeLimit c cl.Address with
      | none => { srv := c, world := w, sends := [], status := .recovered }
      | some (c1, ce) =>
        match c1.chanAt ce with
        | none => { srv := c1, world := w, sends := [], status := .blocked }
        | some ch =>
          match ch.send makeChannelCreatedEvent with
          | none => { srv := c1, world := w, sends := [], status := .blocked }
          | some ch1 =>
            let s := recvLoop L T fuel { ce := ch1, world := w, sends := [], status := .running }
            { srv := c1.setChan ce s.ce, world := s.world, sends := s.sends, status := s.status }

/-! ## Sample inputs -/

/-- Renders one value of a marshalled object. -/
def sampleRender : JsonArg → String
  | .num n => toString n
  | .str s => s

/-- Sample library functions: `Marshal` writes the fields as `key=value;` and never fails. -/
def sampleLibs : Libs :=
  { HexToAddress := fun s => s.length,
    AddressString := fun a => toString a,
    HashString := fun h => toString h,
    DataString := fun d => toString d.length,
    Marshal := fun obj => .ok (String.join (obj.map fun p => p.1 ++ "=" ++ sampleRender p.2 ++ ";")),
    MakeLimit := 1048576 }

/-- Sample library functions whose `Marshal` fails on an event named `Broken`. -/
def pickyLibs : Libs :=
  { sampleLibs with
    Marshal := fun obj =>
      if ("EventName", JsonArg.str "Broken") ∈ obj then .error (errors.New "json: unsupported value")
      else sampleLibs.Marshal obj }

/-- A sample error of the transport. -/
def sampleSendError : GoError := errors.New "transport is closing"

/-- A sample world: the number of calls of `Send` so far, which is also the clock. The
stream fails the call numbered `failAt` (counting from 0) and accepts the others. -/
def sampleTransport (failAt : Nat) : Transport Nat :=
  { Send := fun w _ => (if w = failAt then some sampleSendError else none, w + 1),
    Now := fun w => (w : Int),
    Produce := fun _ => [] }

/-- A sample stream that accepts every event. -/
def steadyTransport : Transport Nat :=
  { Send := fun w _ => (none, w + 1),
    Now := fun w => (w : Int),
    Produce := fun _ => [] }

/-- A sample chain event. -/
def sampleTransfer : Event :=
  { BlockNumber := 10, TxHash := 7, Address := 3, Name := "Transfer", Data := [] }

/-- A second sample chain event. -/
def sampleApproval : Event :=
  { BlockNumber := 11, TxHash := 8, Address := 3, Name := "Approval", Data := [] }

/-- A sample chain event that `pickyLibs` cannot encode. -/
def sampleBroken : Event :=
  { BlockNumber := 12, TxHash := 9, Address := 3, Name := "Broken", Data := [] }

/-- A sample client. -/
def sampleClient : ClientInfo := { Address := "0xabc" }

/-- A sample server whose registry holds, for `0xabc`, a channel of capacity 4 with one
undelivered event. -/
def sampleServer : BinaryGrpcServer :=
  { config := { EventChanCapacity := 4 },
    eventChanMap := [("0xabc", 0)],
    chans := [{ cap := 4, buf := [sampleTransfer] }] }

/-- A sample subscriber: its state is the list of registered event types; subscribing a
registered type and unsubscribing an unregistered one fail. -/
def sampleSubscriber : Subscriber (List String) :=
  { Subscribe := fun st _ ev _ =>
      if ev ∈ st then (some (errors.New "already subscribed"), st) else (none, st ++ [ev]),
    UnSubscribe := fun st _ ev =>
      if ev ∈ st then (none, st.filter (fun x => x ≠ ev))
      else (some (errors.New "not subscribed"), st) }

/-- A sample server whose registry holds, for `0xabc`, a channel of capacity 4 with two
undelivered events. -/
def busyServer : BinaryGrpcServer :=
  { config := { EventChanCapacity := 4 },
    eventChanMap := [("0xabc", 0)],
    chans := [{ cap := 4, buf := [sampleTransfer, sampleApproval] }] }

/-- Whether `makeProtoEvent` encodes the event; the clock has no part in that. -/
def encodes (L : Libs) (e : Event) : Bool :=
  match makeProtoEvent L 0 e with
  | .ok _ => true
  | .error _ => false

/-- What the subscriber returns when it is asked to subscribe the event types of the list
one after another, all of them, each call with the state the previous one left. -/
def subscribeAnswers {σ : Type} (S : Subscriber σ) (addr : Address) (ce : Nat) :
    List String → σ → List SubCall
  | [], _ => []
  | ev :: evs, st =>
    { addr := addr, ev := ev, ce := some ce, result := (S.Subscribe st addr ev ce).1 } ::
      subscribeAnswers S addr ce evs (S.Subscribe st addr ev ce).2

/-- The calls of a list up to and including the first one that returned an error. -/
def uptoFirstFailure : List SubCall → List SubCall
  | [] => []
  | x :: xs => if x.result.isSome then [x] else x :: uptoFirstFailure xs

/-- The error of the first call of a list that returned one. -/
def firstFailure : List SubCall → Option GoError
  | [] => none
  | x :: xs =>
    match x.result with
    | some err => some err
    | none => firstFailure xs

/-- A sample server whose registry holds, for `0xabc`, a channel of capacity 1 that is
filled with one undelivered event. -/
def fullServer : BinaryGrpcServer :=
  { config := { EventChanCapacity := 1 },
    eventChanMap := [("0xabc", 0)],
    chans := [{ cap := 1, buf := [sampleTransfer] }] }

/-- A sample world like `sampleTransport 0` in which a producer holds `Approval` ready
for the channel. -/
def crowdedTransport : Transport Nat :=
  { sampleTransport 0 with Produce := fun _ => [sampleApproval] }

/-- A sample server whose registry holds, for `0xabc`, a channel of capacity 2 with one
undelivered event. -/
def tightServer : BinaryGrpcServer :=
  { config := { EventChanCapacity := 2 },
    eventChanMap := [("0xabc", 0)],
    chans := [{ cap := 2, buf := [sampleTransfer] }] }

/-- A sample server without channels whose configured capacity is the largest `uint64`. -/
def hugeServer : BinaryGrpcServer :=
  BinaryGrpcServer.new { EventChanCapacity := 18446744073709551615 }

/-- What the subscriber returns when it is asked to unsubscribe the event types of the
list one after another, each call with the state the previous one left. -/
def unSubscribeAnswers {σ : Type} (S : Subscriber σ) (addr : Address) :
    List String → σ → List SubCall
  | [], _ => []
  | ev :: evs, st =>
    { addr := addr, ev := ev, ce := none, result := (S.UnSubscribe st addr ev).1 } ::
      unSubscribeAnswers S addr evs (S.UnSubscribe st addr ev).2

/-- The channel the registry holds for an identity. -/
def identityChan (c : BinaryGrpcServer) (address : String) : Option Chan :=
  (c.Load address).bind c.chanAt

/-! ## The loop, one iteration at a time -/

section LoopLemmas

variable {τ : Type} (L : Libs) (T : Transport τ)

theorem recvIter_of_not_running (s : Loop τ) (h : s.status ≠ .running) :
    recvIter L T s = s := by
  unfold recvIter
  split
  · next hs => exact absurd hs h
  · rfl

theorem recvLoop_of_not_running (n : Nat) (s : Loop τ) (h : s.status ≠ .running) :
    recvLoop L T n s = s := by
  induction n with
  | zero => rfl
  | succ n ih => simp only [recvLoop, recvIter_of_not_running L T s h, ih]

theorem recvLoop_add (a b : Nat) (s : Loop τ) :
    recvLoop L T (a + b) s = recvLoop L T b (recvLoop L T a s) := by
  induction a generalizing s with
  | zero => simp [recvLoop]
  | succ a ih =>
    have : a + 1 + b = (a + b) + 1 := by omega
    rw [this]
    simp only [recvLoop]
    exact ih _

theorem Chan.send_eq_some (ch : Chan) (e : Event) (h : ch.buf.length < ch.cap) :
    ch.send e = some { cap := ch.cap, buf := ch.buf ++ [e] } := by
  simp [Chan.send, h]

theorem Chan.send_wf (ch ch1 : Chan) (e : Event) (h : ch.send e = some ch1) : ch1.WF := by
  unfold Chan.send at h
  split at h
  · next hlt =>
    simp only [Option.some.injEq] at h
    subst h
    simp only [Chan.WF, List.length_append, List.length_singleton]
    omega
  · cases h

theorem Chan.recv_cons (ch : Chan) (e : Event) (rest : List Event) (h : ch.buf = e :: rest) :
    ch.recv = some (e, { cap := ch.cap, buf := rest }) := by
  simp [Chan.recv, h]

/-- An iteration on an empty channel is the idle tick: nothing changes. -/
theorem recvIter_empty (s : Loop τ) (h : s.ce.buf = []) : recvIter L T s = s := by
  unfold recvIter
  split
  · simp [Chan.recv, h]
  · rfl

/-- An iteration whose event cannot be encoded only removes the event. -/
theorem recvIter_encode_error (s : Loop τ) (E : Event) (rest : List Event) (err : GoError)
    (hrun : s.status = .running) (hbuf : s.ce.buf = E :: rest)
    (henc : makeProtoEvent L (T.Now s.world) E = .error err) :
    recvIter L T s = { s with ce := { cap := s.ce.cap, buf := rest } } := by
  unfold recvIter
  simp [hrun, Chan.recv_cons _ E rest hbuf, henc]

/-- An iteration whose event is encoded and sent. -/
theorem recvIter_send_ok (s : Loop τ) (E : Event) (rest : List Event) (ev : ProtoEvent)
    (hrun : s.status = .running) (hbuf : s.ce.buf = E :: rest)
    (henc : makeProtoEvent L (T.Now s.world) E = .ok ev)
    (hsend : (T.Send s.world ev).1 = none) :
    recvIter L T s =
      { s with ce := { cap := s.ce.cap, buf := rest }, world := (T.Send s.world ev).2,
               sends := s.sends ++ [{ event := E, wire := ev, result := none }] } := by
  unfold recvIter
  rcases hS : T.Send s.world ev with ⟨r, w1⟩
  rw [hS] at hsend
  simp only at hsend
  subst hsend
  simp [hrun, Chan.recv_cons _ E rest hbuf, henc, hS]

theorem Chan.offer_buf (ch : Chan) (es : List Event) :
    (ch.offer es).buf = ch.buf ++ es.take (ch.cap - ch.buf.length) ∧
      (ch.offer es).cap = ch.cap := by
  induction es generalizing ch with
  | nil => simp [Chan.offer]
  | cons e es ih =>
    by_cases hlt : ch.buf.length < ch.cap
    · have hs := Chan.send_eq_some ch e hlt
      have := ih { cap := ch.cap, buf := ch.buf ++ [e] }
      simp only [Chan.offer, hs]
      simp only [List.length_append, List.length_singleton] at this
      have hc : ch.cap - ch.buf.length = (ch.cap - (ch.buf.length + 1)) + 1 := by omega
      rw [hc, List.take_succ_cons]
      simpa using this
    · have hs : ch.send e = none := by simp [Chan.send, hlt]
      have hc : ch.cap - ch.buf.length = 0 := by omega
      simp [Chan.offer, hs, hc]

theorem Chan.offer_eq (ch : Chan) (es : List Event) :
    ch.offer es = { cap := ch.cap, buf := ch.buf ++ es.take (ch.cap - ch.buf.length) } := by
  obtain ⟨hb, hc⟩ := Chan.offer_buf ch es
  cases hch : ch.offer es with
  | mk cap1 buf1 =>
    rw [hch] at hb hc
    simp only at hb hc
    rw [hb, hc]

/-- Producers that find room for all their events add them all, in order. -/
theorem Chan.offer_of_room (ch : Chan) (es : List Event)
    (h : ch.buf.length + es.length ≤ ch.cap) :
    ch.offer es = { cap := ch.cap, buf := ch.buf ++ es } := by
  obtain ⟨hb, hc⟩ := Chan.offer_buf ch es
  have ht : es.take (ch.cap - ch.buf.length) = es := List.take_of_length_le (by omega)
  rw [ht] at hb
  cases hch : ch.offer es with
  | mk cap1 buf1 =>
    rw [hch] at hb hc
    simp only at hb hc
    rw [hb, hc]

theorem Chan.offer_wf (ch : Chan) (es : List Event) (h : ch.WF) : (ch.offer es).WF := by
  obtain ⟨hb, hc⟩ := Chan.offer_buf ch es
  simp only [Chan.WF] at h ⊢
  rw [hb, hc, List.length_append, List.length_take]
  omega

/-- An iteration whose send fails: the producers write into the channel, then `ce <- e`
either puts the event at the back and the loop is left with the error of the send, or
finds the channel full and blocks. -/
theorem recvIter_send_error_cases (s : Loop τ) (E : Event) (rest : List Event)
    (ev : ProtoEvent) (err : GoError)
    (hrun : s.status = .running) (hbuf : s.ce.buf = E :: rest)
    (henc : makeProtoEvent L (T.Now s.world) E = .ok ev)
    (hsend : (T.Send s.world ev).1 = some err) :
    recvIter L T s =
      match (Chan.offer { cap := s.ce.cap, buf := rest } (T.Produce s.world)).send E with
      | some ce3 =>
        { ce := ce3, world := (T.Send s.world ev).2,
          sends := s.sends ++ [{ event := E, wire := ev, result := some err }],
          status := .returned err }
      | none =>
        { ce := Chan.offer { cap := s.ce.cap, buf := rest } (T.Produce s.world),
          world := (T.Send s.world ev).2,
          sends := s.sends ++ [{ event := E, wire := ev, result := some err }],
          status := .blocked } := by
  unfold recvIter
  rcases hS : T.Send s.world ev with ⟨r, w1⟩
  rw [hS] at hsend
  simp only at hsend
  subst hsend
  simp only [hrun, Chan.recv_cons _ E rest hbuf, henc, hS]

/-- An iteration whose send fails while the producers leave the slot that the dequeue
freed: the event goes to the back of the buffer, behind what the producers wrote, and the
loop is left with the error of the send. -/
theorem recvIter_send_error (s : Loop τ) (E : Event) (rest : List Event) (ev : ProtoEvent)
    (err : GoError) (hwf : s.ce.WF)
    (hrun : s.status = .running) (hbuf : s.ce.buf = E :: rest)
    (henc : makeProtoEvent L (T.Now s.world) E = .ok ev)
    (hsend : (T.Send s.world ev).1 = some err)
    (hroom : (T.Produce s.world).length ≤ s.ce.cap - (rest.length + 1)) :
    recvIter L T s =
      { ce := { cap := s.ce.cap, buf := rest ++ T.Produce s.world ++ [E] },
        world := (T.Send s.world ev).2,
        sends := s.sends ++ [{ event := E, wire := ev, result := some err }],
        status := .returned err } := by
  have hlt : rest.length < s.ce.cap := by
    have := hwf
    simp only [Chan.WF, hbuf, List.length_cons] at this
    omega
  rw [recvIter_send_error_cases L T s E rest ev err hrun hbuf henc hsend]
  rw [Chan.offer_of_room { cap := s.ce.cap, buf := rest } (T.Produce s.world)
    (by simp only; omega)]
  rw [Chan.send_eq_some _ E (by simp only [List.length_append]; omega)]

/-- An iteration whose send fails after the producers have filled the channel: `ce <- e`
blocks, the event is in no channel and the loop does not return. -/
theorem recvIter_send_error_blocked (s : Loop τ) (E : Event) (rest : List Event)
    (ev : ProtoEvent) (err : GoError)
    (hrun : s.status = .running) (hbuf : s.ce.buf = E :: rest)
    (henc : makeProtoEvent L (T.Now s.world) E = .ok ev)
    (hsend : (T.Send s.world ev).1 = some err)
    (hfull : s.ce.cap - (rest.length + 1) < (T.Produce s.world).length) :
    recvIter L T s =
      { ce := { cap := s.ce.cap,
                buf := rest ++ (T.Produce s.world).take (s.ce.cap - rest.length) },
        world := (T.Send s.world ev).2,
        sends := s.sends ++ [{ event := E, wire := ev, result := some err }],
        status := .blocked } := by
  rw [recvIter_send_error_cases L T s E rest ev err hrun hbuf henc hsend,
    Chan.offer_eq { cap := s.ce.cap, buf := rest } (T.Produce s.world)]
  have hnot : ¬ (rest.length + min (s.ce.cap - rest.length) (T.Produce s.world).length <
      s.ce.cap) := by
    omega
  simp [Chan.send, hnot]

/-- What an iteration can be: the loop is not running, the idle tick, an event that does
not encode, a successful send, or a failed send. -/
theorem recvIter_cases (s : Loop τ) :
    recvIter L T s = s ∨
      (∃ E rest, s.status = .running ∧ s.ce.buf = E :: rest ∧
        ((∃ err, makeProtoEvent L (T.Now s.world) E = .error err ∧
            recvIter L T s = { s with ce := { cap := s.ce.cap, buf := rest } }) ∨
          (∃ ev, makeProtoEvent L (T.Now s.world) E = .ok ev ∧
            (((T.Send s.world ev).1 = none ∧
              recvIter L T s =
                { s with ce := { cap := s.ce.cap, buf := rest },
                         world := (T.Send s.world ev).2,
                         sends := s.sends ++ [{ event := E, wire := ev, result := none }] }) ∨
            (∃ err, (T.Send s.world ev).1 = some err ∧
              recvIter L T s =
                match (Chan.offer { cap := s.ce.cap, buf := rest }
                    (T.Produce s.world)).send E with
                | some ce3 =>
                  { ce := ce3, world := (T.Send s.world ev).2,
                    sends := s.sends ++ [{ event := E, wire := ev, result := some err }],
                    status := .returned err }
                | none =>
                  { ce := Chan.offer { cap := s.ce.cap, buf := rest } (T.Produce s.world),
                    world := (T.Send s.world ev).2,
                    sends := s.sends ++ [{ event := E, wire := ev, result := some err }],
                    status := .blocked }))))) := by
  by_cases hrun : s.status = .running
  · cases hb : s.ce.buf with
    | nil => exact Or.inl (recvIter_empty L T s hb)
    | cons E rest =>
      refine Or.inr ⟨E, rest, hrun, rfl, ?_⟩
      cases henc : makeProtoEvent L (T.Now s.world) E with
      | error err =>
        exact Or.inl ⟨err, rfl, recvIter_encode_error L T s E rest err hrun hb henc⟩
      | ok ev =>
        refine Or.inr ⟨ev, rfl, ?_⟩
        cases hS : (T.Send s.world ev).1 with
        | none => exact Or.inl ⟨rfl, recvIter_send_ok L T s E rest ev hrun hb henc hS⟩
        | some err =>
          exact Or.inr ⟨err, rfl, recvIter_send_error_cases L T s E rest ev err hrun hb henc hS⟩
  · exact Or.inl (recvIter_of_not_running L T s hrun)

theorem recvIter_cap (s : Loop τ) : (recvIter L T s).ce.cap = s.ce.cap := by
  rcases recvIter_cases L T s with h | ⟨E, rest, -, -, h⟩
  · rw [h]
  · rcases h with ⟨err, -, h⟩ | ⟨ev, -, h⟩
    · rw [h]
    · rcases h with ⟨-, h⟩ | ⟨err, -, h⟩
      · rw [h]
      · rw [h]
        have hc := (Chan.offer_buf { cap := s.ce.cap, buf := rest } (T.Produce s.world)).2
        split
        · next ce3 h3 =>
          unfold Chan.send at h3
          split at h3
          · simp only [Option.some.injEq] at h3
            rw [← h3]; exact hc
          · cases h3
        · exact hc

theorem recvLoop_cap (n : Nat) (s : Loop τ) : (recvLoop L T n s).ce.cap = s.ce.cap := by
  induction n generalizing s with
  | zero => rfl
  | succ n ih => simp only [recvLoop, ih, recvIter_cap]

theorem recvIter_wf (s : Loop τ) (h : s.ce.WF) : (recvIter L T s).ce.WF := by
  rcases recvIter_cases L T s with h1 | ⟨E, rest, -, hb, h1⟩
  · rw [h1]; exact h
  · have hwf1 : Chan.WF { cap := s.ce.cap, buf := rest } := by
      simp only [Chan.WF, hb, List.length_cons] at h ⊢
      omega
    rcases h1 with ⟨err, -, h1⟩ | ⟨ev, -, h1⟩
    · rw [h1]; exact hwf1
    · rcases h1 with ⟨-, h1⟩ | ⟨err, -, h1⟩
      · rw [h1]; exact hwf1
      · rw [h1]
        split
        · next ce3 h3 => exact Chan.send_wf _ _ _ h3
        · exact Chan.offer_wf _ _ hwf1

theorem recvLoop_wf (n : Nat) (s : Loop τ) (h : s.ce.WF) : (recvLoop L T n s).ce.WF := by
  induction n generalizing s with
  | zero => exact h
  | succ n ih => exact ih _ (recvIter_wf L T s h)

theorem encodes_of_ok (now : Int) (e : Event) (ev : ProtoEvent)
    (h : makeProtoEvent L now e = .ok ev) : encodes L e = true := by
  unfold encodes makeProtoEvent
  unfold makeProtoEvent at h
  simp only at h ⊢
  split at h
  · cases h
  · next x hm => simp [hm]

theorem encodes_of_error (now : Int) (e : Event) (err : GoError)
    (h : makeProtoEvent L now e = .error err) : encodes L e = false := by
  unfold encodes makeProtoEvent
  unfold makeProtoEvent at h
  simp only at h ⊢
  split at h
  · next x hm => simp [hm]
  · cases h

/-- With a stream that accepts every event, enough iterations empty the channel and pass
to `srv.Send`, in the order of the buffer, exactly the events that encode. -/
theorem recvLoop_drain (hsend : ∀ w ev, (T.Send w ev).1 = none) (n : Nat) (s : Loop τ)
    (hrun : s.status = .running) (hn : s.ce.buf.length ≤ n) :
    (recvLoop L T n s).sends.map SendCall.event =
        s.sends.map SendCall.event ++ s.ce.buf.filter (encodes L) ∧
      (recvLoop L T n s).status = .running ∧
      (recvLoop L T n s).ce = { cap := s.ce.cap, buf := [] } := by
  induction n generalizing s with
  | zero =>
    have hnil : s.ce.buf = [] := List.length_eq_zero.mp (by omega)
    refine ⟨by simp [recvLoop, hnil], hrun, ?_⟩
    simp only [recvLoop]
    rw [← hnil]
  | succ n ih =>
    simp only [recvLoop]
    cases hb : s.ce.buf with
    | nil =>
      rw [recvIter_empty L T s hb]
      have := ih s hrun (by rw [hb]; simp)
      rw [hb] at this
      exact this
    | cons E rest =>
      rw [hb] at hn
      simp only [List.length_cons] at hn
      cases henc : makeProtoEvent L (T.Now s.world) E with
      | error err =>
        rw [recvIter_encode_error L T s E rest err hrun hb henc]
        have := ih { s with ce := { cap := s.ce.cap, buf := rest } } hrun (by simpa using by omega)
        simp only at this
        simp only [List.filter_cons, encodes_of_error L _ E err henc]
        simpa using this
      | ok ev =>
        rw [recvIter_send_ok L T s E rest ev hrun hb henc (hsend _ _)]
        have := ih ⟨⟨s.ce.cap, rest⟩, (T.Send s.world ev).2, s.sends ++ [⟨E, ev, none⟩], s.status⟩
          hrun (by simpa using by omega)
        simp only at this
        simp only [List.filter_cons, encodes_of_ok L _ E ev henc]
        simpa using this

/-- The calls of `srv.Send` after an iteration: those before it, and one more, with the
encoding of the event at the front of the channel, when that event encodes. -/
theorem recvIter_sends_cases (s : Loop τ) :
    (recvIter L T s).sends = s.sends ∨
      ∃ E rest ev, s.status = .running ∧ s.ce.buf = E :: rest ∧
        makeProtoEvent L (T.Now s.world) E = .ok ev ∧
        (recvIter L T s).sends =
          s.sends ++ [{ event := E, wire := ev, result := (T.Send s.world ev).1 }] := by
  rcases recvIter_cases L T s with h | ⟨E, rest, hrun, hb, h⟩
  · exact Or.inl (by rw [h])
  · rcases h with ⟨err, -, h⟩ | ⟨ev, henc, h⟩
    · exact Or.inl (by rw [h])
    · refine Or.inr ⟨E, rest, ev, hrun, hb, henc, ?_⟩
      rcases h with ⟨hS, h⟩ | ⟨err, hS, h⟩
      · rw [h, hS]
      · rw [h, hS]
        split <;> rfl

/-- Every call of `srv.Send` that the loop makes passes the encoding of the event it took
from the channel. -/
theorem recvLoop_sends_wire (n : Nat) (s : Loop τ)
    (h : ∀ x ∈ s.sends, ∃ now, makeProtoEvent L now x.event = .ok x.wire) :
    ∀ x ∈ (recvLoop L T n s).sends, ∃ now, makeProtoEvent L now x.event = .ok x.wire := by
  induction n generalizing s with
  | zero => exact h
  | succ n ih =>
    simp only [recvLoop]
    apply ih
    rcases recvIter_sends_cases L T s with h1 | ⟨E, rest, ev, -, -, henc, h1⟩
    · rw [h1]; exact h
    · rw [h1]
      intro x hx
      simp only [List.mem_append, List.mem_singleton] at hx
      rcases hx with hx | hx
      · exact h x hx
      · subst hx; exact ⟨_, henc⟩

/-- An iteration whose event is encoded calls `srv.Send` with the encoding, whatever the
call returns. -/
theorem recvIter_sends (s : Loop τ) (E : Event) (rest : List Event) (ev : ProtoEvent)
    (hrun : s.status = .running) (hbuf : s.ce.buf = E :: rest)
    (henc : makeProtoEvent L (T.Now s.world) E = .ok ev) :
    (recvIter L T s).sends =
      s.sends ++ [{ event := E, wire := ev, result := (T.Send s.world ev).1 }] := by
  cases hS : (T.Send s.world ev).1 with
  | none => rw [recvIter_send_ok L T s E rest ev hrun hbuf henc hS]
  | some err =>
    rw [recvIter_send_error_cases L T s E rest ev err hrun hbuf henc hS]
    split <;> rfl

/-- C3: events `E1`, `E2` enqueued in that order into the channel of a running drain loop
are passed to `srv.Send` in that order, after the events that were already buffered: as
long as every send succeeds, the events passed to `srv.Send` are the buffered ones that
encode, in the order of the buffer, so when all of them encode the sequence of sent
events is the sequence of enqueued events; each call passes the encoding of its event. -/
theorem recvLoop_sends_in_enqueue_order (s : Loop τ) (E1 E2 : Event) (ch1 ch2 : Chan)
    (n : Nat) (hrun : s.status = .running)
    (h1 : s.ce.send E1 = some ch1) (h2 : ch1.send E2 = some ch2)
    (hsend : ∀ w ev, (T.Send w ev).1 = none) (hn : ch2.buf.length ≤ n) :
    (recvLoop L T n { s with ce := ch2 }).sends.map SendCall.event =
        s.sends.map SendCall.event ++ (s.ce.buf ++ [E1, E2]).filter (encodes L) ∧
      ((∀ e ∈ s.ce.buf ++ [E1, E2], encodes L e = true) →
        (recvLoop L T n { s with ce := ch2 }).sends.map SendCall.event =
          s.sends.map SendCall.event ++ (s.ce.buf ++ [E1, E2])) ∧
      ((∀ x ∈ s.sends, ∃ now, makeProtoEvent L now x.event = .ok x.wire) →
        ∀ x ∈ (recvLoop L T n { s with ce := ch2 }).sends,
          ∃ now, makeProtoEvent L now x.event = .ok x.wire) ∧
      (recvLoop L T n { s with ce := ch2 }).status = .running := by
  have hb2 : ch2.buf = s.ce.buf ++ [E1, E2] := by
    unfold Chan.send at h1 h2
    split at h1
    · simp only [Option.some.injEq] at h1
      subst h1
      split at h2
      · simp only [Option.some.injEq] at h2
        subst h2
        simp
      · cases h2
    · cases h1
  have hd := recvLoop_drain L T hsend n { s with ce := ch2 } hrun hn
  simp only [hb2] at hd
  refine ⟨hd.1, ?_, ?_, hd.2.1⟩
  · intro henc
    rw [hd.1, List.filter_eq_self.mpr henc]
  · intro hw
    exact recvLoop_sends_wire L T n _ hw

/-- C4: when `makeProtoEvent` fails on the event `E` that the loop took from the channel,
the iteration only removes `E`: `srv.Send` is not called, `E` is not put back, the loop
keeps running, and it goes on exactly as it would on the channel without `E`; the next
iteration takes the following event `F` and passes its encoding to `srv.Send`. -/
theorem recvIter_encode_error_drops_event (s : Loop τ) (E : Event) (rest : List Event)
    (err : GoError) (hrun : s.status = .running) (hbuf : s.ce.buf = E :: rest)
    (henc : makeProtoEvent L (T.Now s.world) E = .error err) :
    (recvIter L T s).status = .running ∧
      (recvIter L T s).sends = s.sends ∧
      (recvIter L T s).world = s.world ∧
      (recvIter L T s).ce = { cap := s.ce.cap, buf := rest } ∧
      (∀ n, recvLoop L T (n + 1) s =
        recvLoop L T n { s with ce := { cap := s.ce.cap, buf := rest } }) ∧
      (∀ F rest1 evF, rest = F :: rest1 → makeProtoEvent L (T.Now s.world) F = .ok evF →
        (recvLoop L T 2 s).sends =
          s.sends ++ [{ event := F, wire := evF, result := (T.Send s.world evF).1 }]) := by
  have hstep := recvIter_encode_error L T s E rest err hrun hbuf henc
  refine ⟨by rw [hstep]; exact hrun, by rw [hstep], by rw [hstep], by rw [hstep], ?_, ?_⟩
  · intro n
    simp only [recvLoop, hstep]
  · intro F rest1 evF hrest hF
    simp only [recvLoop, hstep]
    exact recvIter_sends L T _ F rest1 evF hrun hrest hF

/-- On an empty channel the loop only idles. -/
theorem recvLoop_empty (n : Nat) (s : Loop τ) (h : s.ce.buf = []) : recvLoop L T n s = s := by
  induction n with
  | zero => rfl
  | succ n ih => simp only [recvLoop, recvIter_empty L T s h, ih]

/-- An iteration only adds to the calls of `srv.Send`. -/
theorem recvIter_sends_append (s : Loop τ) : ∃ l, (recvIter L T s).sends = s.sends ++ l := by
  rcases recvIter_sends_cases L T s with h | ⟨E, rest, ev, -, -, -, h⟩
  · exact ⟨[], by simp [h]⟩
  · exact ⟨_, h⟩

theorem recvLoop_sends_append (n : Nat) (s : Loop τ) :
    ∃ l, (recvLoop L T n s).sends = s.sends ++ l := by
  induction n generalizing s with
  | zero => exact ⟨[], by simp [recvLoop]⟩
  | succ n ih =>
    obtain ⟨l1, h1⟩ := recvIter_sends_append L T s
    obtain ⟨l2, h2⟩ := ih (recvIter L T s)
    exact ⟨l1 ++ l2, by simp only [recvLoop]; rw [h2, h1, List.append_assoc]⟩

/-- The loop started on a channel that holds one event: if it calls `srv.Send` at all, the
first call is for that event, and it does call when the event encodes. -/
theorem recvLoop_single (cap : Nat) (E : Event) (w : τ) (fuel : Nat) :
    (∀ x, (recvLoop L T fuel ⟨⟨cap, [E]⟩, w, [], .running⟩).sends.head? = some x →
        x.event = E) ∧
      (∀ ev, 0 < fuel → makeProtoEvent L (T.Now w) E = .ok ev →
        (recvLoop L T fuel ⟨⟨cap, [E]⟩, w, [], .running⟩).sends.head? =
          some { event := E, wire := ev, result := (T.Send w ev).1 }) := by
  cases fuel with
  | zero => exact ⟨by simp [recvLoop], fun ev h => absurd h (by omega)⟩
  | succ n =>
    simp only [recvLoop]
    cases henc : makeProtoEvent L (T.Now w) E with
    | error err =>
      rw [recvIter_encode_error L T ⟨⟨cap, [E]⟩, w, [], .running⟩ E [] err rfl rfl henc,
        recvLoop_empty L T n _ rfl]
      exact ⟨by simp, fun ev _ h => by cases h⟩
    | ok ev =>
      have h1 := recvIter_sends L T ⟨⟨cap, [E]⟩, w, [], .running⟩ E [] ev rfl rfl henc
      obtain ⟨l, h2⟩ := recvLoop_sends_append L T n (recvIter L T ⟨⟨cap, [E]⟩, w, [], .running⟩)
      rw [h2, h1]
      refine ⟨?_, ?_⟩
      · intro x hx
        simp only [List.nil_append, List.singleton_append, List.head?_cons,
          Option.some.injEq] at hx
        rw [← hx]
      · intro ev1 _ hev
        simp only [Except.ok.injEq] at hev
        subst hev
        simp

/-- While the producers are quiet, an iteration on a channel within its capacity does
not block: the slot that the dequeue freed takes the event that a failed send puts back. -/
theorem recvIter_not_blocked (hquiet : ∀ w, T.Produce w = []) (s : Loop τ) (hwf : s.ce.WF)
    (h : s.status ≠ .blocked) : (recvIter L T s).status ≠ .blocked := by
  by_cases hrun : s.status = .running
  · cases hb : s.ce.buf with
    | nil => rw [recvIter_empty L T s hb]; exact h
    | cons E rest =>
      cases henc : makeProtoEvent L (T.Now s.world) E with
      | error err =>
        rw [recvIter_encode_error L T s E rest err hrun hb henc]
        exact h
      | ok ev =>
        cases hS : (T.Send s.world ev).1 with
        | none =>
          rw [recvIter_send_ok L T s E rest ev hrun hb henc hS]
          exact h
        | some err =>
          rw [recvIter_send_error L T s E rest ev err hwf hrun hb henc hS
            (by rw [hquiet]; simp)]
          simp
  · rw [recvIter_of_not_running L T s hrun]
    exact h

theorem recvLoop_not_blocked (hquiet : ∀ w, T.Produce w = []) (n : Nat) (s : Loop τ)
    (hwf : s.ce.WF) (h : s.status ≠ .blocked) : (recvLoop L T n s).status ≠ .blocked := by
  induction n generalizing s with
  | zero => exact h
  | succ n ih =>
    simp only [recvLoop]
    exact ih _ (recvIter_wf L T s hwf) (recvIter_not_blocked L T hquiet s hwf h)

end LoopLemmas

/-! ## The registry -/

theorem syncMapLoad_store_self (m : List (String × Nat)) (k : String) (v : Nat) :
    syncMapLoad (syncMapStore m k v) k = some v := by
  induction m with
  | nil => simp [syncMapStore, syncMapLoad]
  | cons p rest ih =>
    obtain ⟨k0, v0⟩ := p
    by_cases h : k0 = k
    · simp [syncMapStore, syncMapLoad, h]
    · simp [syncMapStore, syncMapLoad, h, ih]

theorem syncMapLoad_store_other (m : List (String × Nat)) (k other : String) (v : Nat)
    (h : other ≠ k) : syncMapLoad (syncMapStore m k v) other = syncMapLoad m other := by
  induction m with
  | nil =>
    have : ¬ k = other := fun e => h e.symm
    simp [syncMapStore, syncMapLoad, this]
  | cons p rest ih =>
    obtain ⟨k0, v0⟩ := p
    by_cases h0 : k0 = k
    · have : ¬ k = other := fun e => h e.symm
      simp [syncMapStore, syncMapLoad, h0, this]
    · by_cases h1 : k0 = other
      · subst h1
        simp [syncMapStore, syncMapLoad, h]
      · simp [syncMapStore, syncMapLoad, h0, h1, ih]

theorem syncMapStore_keys_absent (m : List (String × Nat)) (k : String) (v : Nat)
    (h : syncMapLoad m k = none) :
    (syncMapStore m k v).map Prod.fst = m.map Prod.fst ++ [k] := by
  induction m with
  | nil => simp [syncMapStore]
  | cons p rest ih =>
    obtain ⟨k0, v0⟩ := p
    by_cases h0 : k0 = k
    · simp [syncMapLoad, h0] at h
    · simp only [syncMapLoad, h0, if_false] at h
      simp [syncMapStore, h0, ih h]

theorem syncMapLoad_none_not_mem (m : List (String × Nat)) (k : String)
    (h : syncMapLoad m k = none) : k ∉ m.map Prod.fst := by
  induction m with
  | nil => simp
  | cons p rest ih =>
    obtain ⟨k0, v0⟩ := p
    by_cases h0 : k0 = k
    · simp [syncMapLoad, h0] at h
    · simp only [syncMapLoad, h0, if_false] at h
      have := ih h
      simp only [List.map_cons, List.mem_cons, not_or]
      exact ⟨fun e => h0 e.symm, this⟩

theorem setChan_load (c : BinaryGrpcServer) (r : Nat) (ch : Chan) (key : String) :
    (c.setChan r ch).Load key = c.Load key := rfl

theorem setChan_chanAt (c : BinaryGrpcServer) (r : Nat) (ch : Chan) (h : r < c.chans.length) :
    (c.setChan r ch).chanAt r = some ch := by
  simp [BinaryGrpcServer.setChan, BinaryGrpcServer.chanAt, h]

theorem chanAt_lt (c : BinaryGrpcServer) (r : Nat) (ch : Chan) (h : c.chanAt r = some ch) :
    r < c.chans.length := by
  unfold BinaryGrpcServer.chanAt at h
  by_contra hge
  rw [List.getElem?_eq_none (by omega)] at h
  cases h

theorem chanAt_mem (c : BinaryGrpcServer) (r : Nat) (ch : Chan) (h : c.chanAt r = some ch) :
    ch ∈ c.chans := by
  unfold BinaryGrpcServer.chanAt at h
  rw [List.getElem?_eq_some] at h
  obtain ⟨hlt, he⟩ := h
  rw [← he]
  exact List.getElem_mem hlt

theorem Chan.tryMake_eq_some (limit n : Nat) (ch : Chan) (h : Chan.tryMake limit n = some ch) :
    ch = Chan.make n ∧ n < 9223372036854775808 ∧ n ≤ limit := by
  unfold Chan.tryMake at h
  split at h
  · next hc =>
    simp only [Option.some.injEq] at h
    exact ⟨h.symm, hc⟩
  · cases h

/-- The three ways of the get-or-create: the registry has the address; it has not and
`make` panics; it has not and the channel that `make` returns is stored. -/
theorem getOrCreate_cases (limit : Nat) (c : BinaryGrpcServer) (address : String) :
    (∃ rv, c.Load address = some rv ∧ getOrCreate limit c address = some (c, rv)) ∨
      (c.Load address = none ∧ Chan.tryMake limit c.config.EventChanCapacity = none ∧
        getOrCreate limit c address = none) ∨
      (c.Load address = none ∧
        Chan.tryMake limit c.config.EventChanCapacity =
          some (Chan.make c.config.EventChanCapacity) ∧
        getOrCreate limit c address =
          some ({ c with chans := c.chans ++ [Chan.make c.config.EventChanCapacity],
                         eventChanMap := syncMapStore c.eventChanMap address c.chans.length },
            c.chans.length)) := by
  unfold getOrCreate
  cases hl : c.Load address with
  | some rv => exact Or.inl ⟨rv, rfl, rfl⟩
  | none =>
    cases hm : Chan.tryMake limit c.config.EventChanCapacity with
    | none => exact Or.inr (Or.inl ⟨rfl, rfl, rfl⟩)
    | some ch =>
      have := (Chan.tryMake_eq_some _ _ _ hm).1
      subst this
      exact Or.inr (Or.inr ⟨rfl, rfl, rfl⟩)

/-- After the get-or-create the registry maps the address to the reference in use. -/
theorem getOrCreate_load (limit : Nat) (c c1 : BinaryGrpcServer) (address : String) (ce : Nat)
    (hg : getOrCreate limit c address = some (c1, ce)) : c1.Load address = some ce := by
  rcases getOrCreate_cases limit c address with ⟨rv, hl, h⟩ | ⟨-, -, h⟩ | ⟨-, -, h⟩
  · rw [h] at hg
    simp only [Option.some.injEq, Prod.mk.injEq] at hg
    rw [← hg.1, ← hg.2]; exact hl
  · rw [h] at hg; cases hg
  · rw [h] at hg
    simp only [Option.some.injEq, Prod.mk.injEq] at hg
    rw [← hg.1, ← hg.2]
    simp [BinaryGrpcServer.Load, syncMapLoad_store_self]

/-- The get-or-create keeps every channel within its capacity. -/
theorem getOrCreate_wf (limit : Nat) (c c1 : BinaryGrpcServer) (address : String) (ce : Nat)
    (hg : getOrCreate limit c address = some (c1, ce))
    (h : ∀ ch ∈ c.chans, ch.WF) : ∀ ch ∈ c1.chans, ch.WF := by
  rcases getOrCreate_cases limit c address with ⟨rv, -, h1⟩ | ⟨-, -, h1⟩ | ⟨-, -, h1⟩
  · rw [h1] at hg
    simp only [Option.some.injEq, Prod.mk.injEq] at hg
    rw [← hg.1]; exact h
  · rw [h1] at hg; cases hg
  · rw [h1] at hg
    simp only [Option.some.injEq, Prod.mk.injEq] at hg
    rw [← hg.1]
    intro ch hch
    simp only [List.mem_append, List.mem_singleton] at hch
    rcases hch with hch | hch
    · exact h ch hch
    · subst hch; simp [Chan.WF, Chan.make]

/-- The sequential get-or-create is the two atomic steps of one caller, run back to back. -/
theorem openStep_twice (limit : Nat) (c : BinaryGrpcServer) (address : String) :
    openStep limit address (openStep limit address c .atLoad).1
        (openStep limit address c .atLoad).2 =
      match getOrCreate limit c address with
      | some (c1, ce) => (c1, .holds ce)
      | none => (c, .panicked) := by
  unfold getOrCreate
  cases h : c.Load address with
  | none =>
    cases hm : Chan.tryMake limit c.config.EventChanCapacity with
    | none => simp [openStep, h, hm]
    | some ch => simp [openStep, h, hm]
  | some rv => simp [openStep, h]

theorem getOrCreate_of_identityChan (limit : Nat) (c : BinaryGrpcServer) (address : String)
    (ch : Chan) (h : identityChan c address = some ch) :
    ∃ ce, getOrCreate limit c address = some (c, ce) ∧ c.chanAt ce = some ch := by
  unfold identityChan at h
  cases hl : c.Load address with
  | none => rw [hl] at h; cases h
  | some r =>
    rw [hl] at h
    simp only [Option.some_bind] at h
    exact ⟨r, by simp [getOrCreate, hl], h⟩

/-- The channel a session works on: a new empty one of the configured capacity when the
identity has none and `make` accepts the capacity, the identity's channel otherwise. -/
theorem getOrCreate_chanAt_of (limit : Nat) (c : BinaryGrpcServer) (address : String)
    (cap : Nat) (buf : List Event)
    (hst : (c.Load address = none ∧ cap = c.config.EventChanCapacity ∧ buf = [] ∧
        Chan.tryMake limit cap = some (Chan.make cap)) ∨
      identityChan c address = some { cap := cap, buf := buf }) :
    ∃ c1 ce, getOrCreate limit c address = some (c1, ce) ∧
      c1.chanAt ce = some { cap := cap, buf := buf } := by
  rcases hst with ⟨hl, hcap, hbuf, hm⟩ | hid
  · subst hbuf hcap
    rcases getOrCreate_cases limit c address with ⟨rv, h, -⟩ | ⟨-, h, -⟩ | ⟨-, -, h⟩
    · rw [hl] at h; cases h
    · rw [hm] at h; cases h
    · exact ⟨_, _, h, by simp [BinaryGrpcServer.chanAt, Chan.make]⟩
  · obtain ⟨ce, hg, hch⟩ := getOrCreate_of_identityChan limit c address _ hid
    exact ⟨c, ce, hg, hch⟩

/-! ## `RecvEvents` as its loop -/

section SessionLemmas

variable {τ : Type} (L : Libs) (T : Transport τ)

/-- A session that got past the enqueue of the marker is its loop, started on the channel
that holds the marker at the back. -/
theorem RecvEvents_eq_loop (c c1 : BinaryGrpcServer) (cl : ClientInfo) (w : τ) (fuel : Nat)
    (ce : Nat) (ch ch1 : Chan) (hne : cl.Address ≠ "")
    (hg : getOrCreate L.MakeLimit c cl.Address = some (c1, ce))
    (hch : c1.chanAt ce = some ch)
    (hmark : ch.send makeChannelCreatedEvent = some ch1) :
    RecvEvents L T fuel c (some cl) w =
      { srv := c1.setChan ce
          (recvLoop L T fuel { ce := ch1, world := w, sends := [], status := .running }).ce,
        world := (recvLoop L T fuel { ce := ch1, world := w, sends := [], status := .running }).world,
        sends := (recvLoop L T fuel { ce := ch1, world := w, sends := [], status := .running }).sends,
        status := (recvLoop L T fuel { ce := ch1, world := w, sends := [], status := .running }).status } := by
  unfold RecvEvents
  simp only [hne, if_false, hg, hch, hmark]

/-- A session whose enqueue of the marker finds the channel full stays there. -/
theorem RecvEvents_eq_blocked (c c1 : BinaryGrpcServer) (cl : ClientInfo) (w : τ)
    (fuel : Nat) (ce : Nat) (ch : Chan) (hne : cl.Address ≠ "")
    (hg : getOrCreate L.MakeLimit c cl.Address = some (c1, ce))
    (hch : c1.chanAt ce = some ch)
    (hmark : ch.send makeChannelCreatedEvent = none) :
    RecvEvents L T fuel c (some cl) w =
      { srv := c1, world := w, sends := [], status := .blocked } := by
  unfold RecvEvents
  simp only [hne, if_false, hg, hch, hmark]

/-- A session whose `make` panics returns nil through the deferred `recover`: nothing is
stored and nothing is sent. -/
theorem RecvEvents_eq_recovered (c : BinaryGrpcServer) (cl : ClientInfo) (w : τ)
    (fuel : Nat) (hne : cl.Address ≠ "")
    (hg : getOrCreate L.MakeLimit c cl.Address = none) :
    RecvEvents L T fuel c (some cl) w =
      { srv := c, world := w, sends := [], status := .recovered } := by
  unfold RecvEvents
  simp only [hne, if_false, hg]

/-- A session that is in its loop got past the enqueue of the marker. -/
theorem RecvEvents_running (c : BinaryGrpcServer) (cl : ClientInfo) (w : τ) (fuel : Nat)
    (hrun : (RecvEvents L T fuel c (some cl) w).status = .running) :
    cl.Address ≠ "" ∧ ∃ c1 ce ch ch1,
      getOrCreate L.MakeLimit c cl.Address = some (c1, ce) ∧
      c1.chanAt ce = some ch ∧
      ch.send makeChannelCreatedEvent = some ch1 := by
  by_cases hne : cl.Address = ""
  · simp [RecvEvents, hne] at hrun
  · refine ⟨hne, ?_⟩
    cases hg : getOrCreate L.MakeLimit c cl.Address with
    | none =>
      rw [RecvEvents_eq_recovered L T c cl w fuel hne hg] at hrun
      cases hrun
    | some p =>
      obtain ⟨c1, ce⟩ := p
      cases hch : c1.chanAt ce with
      | none =>
        unfold RecvEvents at hrun
        simp [hne, hg, hch] at hrun
      | some ch =>
        cases hmark : ch.send makeChannelCreatedEvent with
        | none =>
          rw [RecvEvents_eq_blocked L T c c1 cl w fuel ce ch hne hg hch hmark] at hrun
          cases hrun
        | some ch1 => exact ⟨c1, ce, ch, ch1, rfl, hch, hmark⟩

/-- The channel of the identity after a session that got past the enqueue of the marker
is the channel its loop worked on. -/
theorem RecvEvents_identityChan (c c1 : BinaryGrpcServer) (cl : ClientInfo) (w : τ)
    (fuel : Nat) (ce : Nat) (ch ch1 : Chan) (hne : cl.Address ≠ "")
    (hg : getOrCreate L.MakeLimit c cl.Address = some (c1, ce))
    (hch : c1.chanAt ce = some ch)
    (hmark : ch.send makeChannelCreatedEvent = some ch1) :
    identityChan (RecvEvents L T fuel c (some cl) w).srv cl.Address =
      some (recvLoop L T fuel { ce := ch1, world := w, sends := [], status := .running }).ce := by
  rw [RecvEvents_eq_loop L T c c1 cl w fuel ce ch ch1 hne hg hch hmark]
  simp only [identityChan, setChan_load, getOrCreate_load _ _ _ _ _ hg, Option.some_bind]
  exact setChan_chanAt _ _ _ (chanAt_lt _ _ _ hch)

/-- What a session looks like after `k` iterations when it is in its loop with `E` at the
front of the identity's channel: the loop state that the next iteration starts from. -/
theorem RecvEvents_loop_state (c : BinaryGrpcServer) (cl : ClientInfo) (w : τ)
    (k : Nat) (cap : Nat) (E : Event) (rest : List Event)
    (hrun : (RecvEvents L T k c (some cl) w).status = .running)
    (hbuf : identityChan (RecvEvents L T k c (some cl) w).srv cl.Address =
      some { cap := cap, buf := E :: rest }) :
    ∃ s0 : Loop τ, s0.ce.WF ∧
      (recvLoop L T k s0).status = .running ∧
      (recvLoop L T k s0).ce = { cap := cap, buf := E :: rest } ∧
      (recvLoop L T k s0).world = (RecvEvents L T k c (some cl) w).world ∧
      (recvLoop L T k s0).sends = (RecvEvents L T k c (some cl) w).sends ∧
      ∀ n, (RecvEvents L T n c (some cl) w).status = (recvLoop L T n s0).status ∧
        (RecvEvents L T n c (some cl) w).sends = (recvLoop L T n s0).sends ∧
        identityChan (RecvEvents L T n c (some cl) w).srv cl.Address =
          some (recvLoop L T n s0).ce := by
  obtain ⟨hne, c1, ce, ch, ch1, hg, hch, hmark⟩ := RecvEvents_running L T c cl w k hrun
  have hid := fun n => RecvEvents_identityChan L T c c1 cl w n ce ch ch1 hne hg hch hmark
  have heq := fun n => RecvEvents_eq_loop L T c c1 cl w n ce ch ch1 hne hg hch hmark
  refine ⟨{ ce := ch1, world := w, sends := [], status := .running },
    Chan.send_wf _ _ _ hmark, ?_, ?_, ?_, ?_, ?_⟩
  · rw [heq k] at hrun; exact hrun
  · rw [hid k] at hbuf
    simpa using hbuf
  · rw [heq k]
  · rw [heq k]
  · intro n
    exact ⟨by rw [heq n], by rw [heq n], hid n⟩

/-- The state in which a session ends when `srv.Send` fails on the event `E` taken from
the front of the identity's channel in the iteration after the `k`-th, and the producers
leave the slot that the dequeue freed. -/
theorem RecvEvents_send_error_state (c : BinaryGrpcServer) (cl : ClientInfo) (w : τ)
    (k : Nat) (cap : Nat) (E : Event) (rest : List Event) (ev : ProtoEvent) (err : GoError)
    (hrun : (RecvEvents L T k c (some cl) w).status = .running)
    (hbuf : identityChan (RecvEvents L T k c (some cl) w).srv cl.Address =
      some { cap := cap, buf := E :: rest })
    (henc : makeProtoEvent L (T.Now (RecvEvents L T k c (some cl) w).world) E = .ok ev)
    (hsend : (T.Send (RecvEvents L T k c (some cl) w).world ev).1 = some err)
    (hroom : (T.Produce (RecvEvents L T k c (some cl) w).world).length ≤
      cap - (rest.length + 1)) (m : Nat) :
    (RecvEvents L T (k + 1 + m) c (some cl) w).status = .returned err ∧
    (RecvEvents L T (k + 1 + m) c (some cl) w).sends =
      (RecvEvents L T k c (some cl) w).sends ++ [{ event := E, wire := ev, result := some err }] ∧
    identityChan (RecvEvents L T (k + 1 + m) c (some cl) w).srv cl.Address =
      some { cap := cap,
             buf := rest ++ T.Produce (RecvEvents L T k c (some cl) w).world ++ [E] } := by
  obtain ⟨s0, hwf0, hrunk, hcek, hwk, hsk, hall⟩ :=
    RecvEvents_loop_state L T c cl w k cap E rest hrun hbuf
  rw [← hwk] at henc hsend hroom
  have hwfk := recvLoop_wf L T k s0 hwf0
  have hstep := recvIter_send_error L T _ E rest ev err hwfk hrunk (by rw [hcek]) henc hsend
    (by rw [hcek]; exact hroom)
  have hloop : recvLoop L T (k + 1 + m) s0 = recvIter L T (recvLoop L T k s0) := by
    rw [recvLoop_add, recvLoop_add]
    simp only [recvLoop]
    apply recvLoop_of_not_running
    rw [hstep]
    simp
  obtain ⟨h1, h2, h3⟩ := hall (k + 1 + m)
  rw [h1, h2, h3, hloop, hstep, ← hsk, ← hwk, hcek]
  exact ⟨rfl, rfl, rfl⟩

/-- The state in which a session ends when `srv.Send` fails on the event `E` taken from
the front of the identity's channel in the iteration after the `k`-th, and the producers
fill the channel before `ce <- e` runs: the session is blocked for good, it does not
return, and the channel holds what was waiting and what the producers wrote, not `E`. -/
theorem RecvEvents_send_error_blocked (c : BinaryGrpcServer) (cl : ClientInfo) (w : τ)
    (k : Nat) (cap : Nat) (E : Event) (rest : List Event) (ev : ProtoEvent) (err : GoError)
    (hrun : (RecvEvents L T k c (some cl) w).status = .running)
    (hbuf : identityChan (RecvEvents L T k c (some cl) w).srv cl.Address =
      some { cap := cap, buf := E :: rest })
    (henc : makeProtoEvent L (T.Now (RecvEvents L T k c (some cl) w).world) E = .ok ev)
    (hsend : (T.Send (RecvEvents L T k c (some cl) w).world ev).1 = some err)
    (hfull : cap - (rest.length + 1) <
      (T.Produce (RecvEvents L T k c (some cl) w).world).length) (m : Nat) :
    (RecvEvents L T (k + 1 + m) c (some cl) w).status = .blocked ∧
    identityChan (RecvEvents L T (k + 1 + m) c (some cl) w).srv cl.Address =
      some { cap := cap,
             buf := rest ++
               (T.Produce (RecvEvents L T k c (some cl) w).world).take (cap - rest.length) } := by
  obtain ⟨s0, -, hrunk, hcek, hwk, -, hall⟩ :=
    RecvEvents_loop_state L T c cl w k cap E rest hrun hbuf
  rw [← hwk] at henc hsend hfull
  have hstep := recvIter_send_error_blocked L T _ E rest ev err hrunk (by rw [hcek]) henc hsend
    (by rw [hcek]; exact hfull)
  have hloop : recvLoop L T (k + 1 + m) s0 = recvIter L T (recvLoop L T k s0) := by
    rw [recvLoop_add, recvLoop_add]
    simp only [recvLoop]
    apply recvLoop_of_not_running
    rw [hstep]
    simp
  obtain ⟨h1, -, h3⟩ := hall (k + 1 + m)
  rw [h1, h3, hloop, hstep, ← hwk, hcek]
  exact ⟨rfl, rfl⟩

/-- C1, as the code has it: when `srv.Send` fails with `err` on the event `E` that a
session of `RecvEvents` took from the front of the identity's channel (in the iteration
after the `k`-th) and the producers that write into the channel before `ce <- e` runs
leave the slot that the dequeue freed, the session returns exactly `err` (for every
number of further iterations the result is the same), that failed call is the last call
of `srv.Send`, and the identity's channel then holds, as a multiset, the events it held
just before `E` was taken, `E` among them, together with the events the producers
wrote. -/
theorem RecvEvents_send_error_returns_and_keeps_events (c : BinaryGrpcServer)
    (cl : ClientInfo) (w : τ) (k : Nat) (cap : Nat) (E : Event) (rest : List Event)
    (ev : ProtoEvent) (err : GoError)
    (hrun : (RecvEvents L T k c (some cl) w).status = .running)
    (hbuf : identityChan (RecvEvents L T k c (some cl) w).srv cl.Address =
      some { cap := cap, buf := E :: rest })
    (henc : makeProtoEvent L (T.Now (RecvEvents L T k c (some cl) w).world) E = .ok ev)
    (hsend : (T.Send (RecvEvents L T k c (some cl) w).world ev).1 = some err)
    (hroom : (T.Produce (RecvEvents L T k c (some cl) w).world).length ≤
      cap - (rest.length + 1)) (m : Nat) :
    (RecvEvents L T (k + 1 + m) c (some cl) w).status = .returned err ∧
    (RecvEvents L T (k + 1 + m) c (some cl) w).sends =
      (RecvEvents L T k c (some cl) w).sends ++ [{ event := E, wire := ev, result := some err }] ∧
    ∃ buf, identityChan (RecvEvents L T (k + 1 + m) c (some cl) w).srv cl.Address =
        some { cap := cap, buf := buf } ∧
      E ∈ buf ∧
      (buf : Multiset Event) = ((E :: rest : List Event) : Multiset Event) +
        ((T.Produce (RecvEvents L T k c (some cl) w).world : List Event) : Multiset Event) := by
  obtain ⟨h1, h2, h3⟩ :=
    RecvEvents_send_error_state L T c cl w k cap E rest ev err hrun hbuf henc hsend hroom m
  refine ⟨h1, h2, _, h3, by simp, ?_⟩
  rw [Multiset.coe_add, Multiset.coe_eq_coe]
  have h := List.perm_append_singleton E
    (rest ++ T.Produce (RecvEvents L T k c (some cl) w).world)
  simpa using h

/-- A session opened on a channel with room for the marker, over a stream that accepts
every event, passes to `srv.Send` the buffered events that encode and then its marker. -/
theorem RecvEvents_drain (c : BinaryGrpcServer) (cl : ClientInfo) (w : τ) (cap : Nat)
    (buf : List Event) (n : Nat) (hne : cl.Address ≠ "")
    (hid : identityChan c cl.Address = some { cap := cap, buf := buf })
    (hroom : buf.length < cap) (hsend : ∀ w ev, (T.Send w ev).1 = none)
    (hn : buf.length + 1 ≤ n) :
    (RecvEvents L T n c (some cl) w).sends.map SendCall.event =
        (buf ++ [makeChannelCreatedEvent]).filter (encodes L) ∧
      (RecvEvents L T n c (some cl) w).status = .running := by
  obtain ⟨ce, hg, hch⟩ := getOrCreate_of_identityChan L.MakeLimit c cl.Address _ hid
  have hmark := Chan.send_eq_some { cap := cap, buf := buf } makeChannelCreatedEvent hroom
  rw [RecvEvents_eq_loop L T c c cl w n ce _ _ hne hg hch hmark]
  have hd := recvLoop_drain L T hsend n
    ⟨⟨cap, buf ++ [makeChannelCreatedEvent]⟩, w, [], .running⟩ rfl (by simpa using hn)
  simp only [List.map_nil, List.nil_append] at hd
  exact ⟨hd.1, hd.2.1⟩

/-- C2, as the code has it: when `srv.Send` fails on the event `E` taken from the front
of the identity's channel and `ce <- e` completes, `E` is put at the back of the channel,
behind the events that were waiting and those the producers wrote meanwhile: the next
item dequeued is the oldest of these (it is `E` only when there is none), and a later
session of the same identity over a stream that accepts every event, the channel having
room for its marker, sends these events first, then `E`, then its marker. -/
theorem RecvEvents_send_error_requeues_at_back (T2 : Transport τ) (c : BinaryGrpcServer)
    (cl : ClientInfo) (w : τ) (k : Nat) (cap : Nat) (E : Event) (rest : List Event)
    (ev : ProtoEvent) (err : GoError)
    (hrun : (RecvEvents L T k c (some cl) w).status = .running)
    (hbuf : identityChan (RecvEvents L T k c (some cl) w).srv cl.Address =
      some { cap := cap, buf := E :: rest })
    (henc : makeProtoEvent L (T.Now (RecvEvents L T k c (some cl) w).world) E = .ok ev)
    (hsend : (T.Send (RecvEvents L T k c (some cl) w).world ev).1 = some err)
    (hroom : (T.Produce (RecvEvents L T k c (some cl) w).world).length ≤
      cap - (rest.length + 1)) (m : Nat) :
    identityChan (RecvEvents L T (k + 1 + m) c (some cl) w).srv cl.Address =
        some { cap := cap,
               buf := rest ++ T.Produce (RecvEvents L T k c (some cl) w).world ++ [E] } ∧
      (Chan.recv
          ⟨cap, rest ++ T.Produce (RecvEvents L T k c (some cl) w).world ++ [E]⟩).map
        Prod.fst =
        some ((rest ++ T.Produce (RecvEvents L T k c (some cl) w).world).head?.getD E) ∧
      (∀ n w2, (∀ w ev, (T2.Send w ev).1 = none) →
        (rest ++ T.Produce (RecvEvents L T k c (some cl) w).world).length + 1 < cap →
        (rest ++ T.Produce (RecvEvents L T k c (some cl) w).world).length + 2 ≤ n →
        (RecvEvents L T2 n (RecvEvents L T (k + 1 + m) c (some cl) w).srv (some cl)
            w2).sends.map SendCall.event =
          (rest ++ T.Produce (RecvEvents L T k c (some cl) w).world ++
            [E, makeChannelCreatedEvent]).filter (encodes L)) := by
  obtain ⟨hne, -⟩ := RecvEvents_running L T c cl w k hrun
  obtain ⟨-, -, h3⟩ :=
    RecvEvents_send_error_state L T c cl w k cap E rest ev err hrun hbuf henc hsend hroom m
  refine ⟨h3, ?_, ?_⟩
  · cases hp : rest ++ T.Produce (RecvEvents L T k c (some cl) w).world <;> simp [Chan.recv]
  · intro n w2 hsend2 hroom2 hn
    have := RecvEvents_drain L T2 _ cl w2 cap
      (rest ++ T.Produce (RecvEvents L T k c (some cl) w).world ++ [E]) n hne h3
      (by simpa using hroom2) hsend2 (by simpa using hn)
    simpa using this.1

/-- C5, as the code has it: for a non-empty client identity whose channel does not exist
yet or exists and is empty, a session of `RecvEvents` that sends anything sends the
`ChannelCreated` marker first; it does send it when `make` accepts the capacity of a
channel that does not exist yet, the channel has capacity for it, the marker encodes and
the loop runs at least one iteration. -/
theorem RecvEvents_first_event_is_marker (c : BinaryGrpcServer) (cl : ClientInfo) (w : τ)
    (cap : Nat) (fuel : Nat) (hne : cl.Address ≠ "")
    (hst : (c.Load cl.Address = none ∧ cap = c.config.EventChanCapacity) ∨
      identityChan c cl.Address = some { cap := cap, buf := [] }) :
    (∀ x, (RecvEvents L T fuel c (some cl) w).sends.head? = some x →
        x.event = makeChannelCreatedEvent ∧ x.event.Name = "ChannelCreated") ∧
      (∀ ev, 0 < fuel → 0 < cap →
        (c.Load cl.Address = none → Chan.tryMake L.MakeLimit cap = some (Chan.make cap)) →
        makeProtoEvent L (T.Now w) makeChannelCreatedEvent = .ok ev →
        (RecvEvents L T fuel c (some cl) w).sends.head? =
          some { event := makeChannelCreatedEvent, wire := ev, result := (T.Send w ev).1 }) := by
  have key : (∃ c1 ce, getOrCreate L.MakeLimit c cl.Address = some (c1, ce) ∧
      c1.chanAt ce = some { cap := cap, buf := [] }) ∨
      (c.Load cl.Address = none ∧ Chan.tryMake L.MakeLimit cap = none ∧
        getOrCreate L.MakeLimit c cl.Address = none) := by
    rcases hst with ⟨hl, hcap⟩ | hid
    · subst hcap
      rcases getOrCreate_cases L.MakeLimit c cl.Address with ⟨rv, h, -⟩ | ⟨-, hm, h⟩ | ⟨-, hm, -⟩
      · rw [hl] at h; cases h
      · exact Or.inr ⟨hl, hm, h⟩
      · exact Or.inl (getOrCreate_chanAt_of L.MakeLimit c cl.Address _ []
          (Or.inl ⟨hl, rfl, rfl, hm⟩))
    · exact Or.inl (getOrCreate_chanAt_of L.MakeLimit c cl.Address cap [] (Or.inr hid))
  rcases key with ⟨c1, ce, hg, hch⟩ | ⟨hl, hm, hg⟩
  · by_cases hcap : 0 < cap
    · have hmark := Chan.send_eq_some { cap := cap, buf := [] } makeChannelCreatedEvent hcap
      rw [RecvEvents_eq_loop L T c c1 cl w fuel ce _ _ hne hg hch hmark]
      have h := recvLoop_single L T cap makeChannelCreatedEvent w fuel
      refine ⟨?_, ?_⟩
      · intro x hx
        have := h.1 x hx
        exact ⟨this, by rw [this]; rfl⟩
      · intro ev hf _ _ hev
        exact h.2 ev hf hev
    · have hmark : Chan.send { cap := cap, buf := [] } makeChannelCreatedEvent = none := by
        simp only [Chan.send, List.length_nil]
        rw [if_neg hcap]
      rw [RecvEvents_eq_blocked L T c c1 cl w fuel ce _ hne hg hch hmark]
      exact ⟨by simp, fun ev _ h => absurd h hcap⟩
  · rw [RecvEvents_eq_recovered L T c cl w fuel hne hg]
    refine ⟨by simp, ?_⟩
    intro ev _ _ hmake _
    rw [hmake hl] at hm
    cases hm

/-- A session of a non-empty identity leaves the registry as its get-or-create made it. -/
theorem RecvEvents_eventChanMap (c c1 : BinaryGrpcServer) (cl : ClientInfo) (w : τ)
    (fuel : Nat) (ce : Nat) (hne : cl.Address ≠ "")
    (hg : getOrCreate L.MakeLimit c cl.Address = some (c1, ce)) :
    (RecvEvents L T fuel c (some cl) w).srv.eventChanMap = c1.eventChanMap := by
  unfold RecvEvents
  simp only [hne, if_false, hg]
  split
  · rfl
  · split
    · rfl
    · rfl

/-- A session whose channel has no free slot for the marker (capacity 0, or an existing
channel filled to capacity) stays blocked in the enqueue of the marker: it never reaches
its loop and sends nothing, however long it is run. -/
theorem RecvEvents_blocked_when_full (c : BinaryGrpcServer) (cl : ClientInfo) (w : τ)
    (cap : Nat) (buf : List Event) (fuel : Nat) (hne : cl.Address ≠ "")
    (hst : (c.Load cl.Address = none ∧ cap = c.config.EventChanCapacity ∧ buf = [] ∧
        Chan.tryMake L.MakeLimit cap = some (Chan.make cap)) ∨
      identityChan c cl.Address = some { cap := cap, buf := buf })
    (hfull : cap ≤ buf.length) :
    (RecvEvents L T fuel c (some cl) w).status = .blocked ∧
      (RecvEvents L T fuel c (some cl) w).sends = [] := by
  obtain ⟨c1, ce, hg, hch⟩ := getOrCreate_chanAt_of L.MakeLimit c cl.Address cap buf hst
  have hmark : Chan.send { cap := cap, buf := buf } makeChannelCreatedEvent = none := by
    simp only [Chan.send]
    rw [if_neg (by omega)]
  rw [RecvEvents_eq_blocked L T c c1 cl w fuel ce _ hne hg hch hmark]
  exact ⟨rfl, rfl⟩

/-- A session of an identity without channel whose configured capacity `make` rejects
returns nil: nothing is stored, nothing is sent, the loop is not reached. -/
theorem RecvEvents_recovered_when_out_of_range (c : BinaryGrpcServer) (cl : ClientInfo)
    (w : τ) (fuel : Nat) (hne : cl.Address ≠ "") (hl : c.Load cl.Address = none)
    (hm : Chan.tryMake L.MakeLimit c.config.EventChanCapacity = none) :
    RecvEvents L T fuel c (some cl) w =
      { srv := c, world := w, sends := [], status := .recovered } := by
  apply RecvEvents_eq_recovered L T c cl w fuel hne
  simp only [getOrCreate, hl, hm]

/-- C11, as the code has it: for a non-empty identity whose channel has a free slot (a
new channel whose configured capacity is at least 1 and accepted by `make`, or an existing
channel that holds fewer events than its capacity), the enqueue of the channel-created
marker completes: the session is in its drain loop with nothing sent yet and the marker at
the back of the identity's channel, from there on it is that loop, and while the producers
are quiet it is never blocked. -/
theorem RecvEvents_reaches_loop_when_room (c : BinaryGrpcServer) (cl : ClientInfo) (w : τ)
    (cap : Nat) (buf : List Event) (hne : cl.Address ≠ "")
    (hst : (c.Load cl.Address = none ∧ cap = c.config.EventChanCapacity ∧ buf = [] ∧
        Chan.tryMake L.MakeLimit cap = some (Chan.make cap)) ∨
      identityChan c cl.Address = some { cap := cap, buf := buf })
    (hroom : buf.length < cap) :
    (RecvEvents L T 0 c (some cl) w).status = .running ∧
      (RecvEvents L T 0 c (some cl) w).sends = [] ∧
      identityChan (RecvEvents L T 0 c (some cl) w).srv cl.Address =
        some { cap := cap, buf := buf ++ [makeChannelCreatedEvent] } ∧
      (∀ fuel,
        (RecvEvents L T fuel c (some cl) w).status =
          (recvLoop L T fuel
            ⟨⟨cap, buf ++ [makeChannelCreatedEvent]⟩, w, [], .running⟩).status ∧
        (RecvEvents L T fuel c (some cl) w).sends =
          (recvLoop L T fuel
            ⟨⟨cap, buf ++ [makeChannelCreatedEvent]⟩, w, [], .running⟩).sends ∧
        identityChan (RecvEvents L T fuel c (some cl) w).srv cl.Address =
          some (recvLoop L T fuel
            ⟨⟨cap, buf ++ [makeChannelCreatedEvent]⟩, w, [], .running⟩).ce) ∧
      ((∀ w, T.Produce w = []) →
        ∀ fuel, (RecvEvents L T fuel c (some cl) w).status ≠ .blocked) := by
  obtain ⟨c1, ce, hg, hch⟩ := getOrCreate_chanAt_of L.MakeLimit c cl.Address cap buf hst
  have hmark := Chan.send_eq_some { cap := cap, buf := buf } makeChannelCreatedEvent hroom
  have heq := fun n => RecvEvents_eq_loop L T c c1 cl w n ce _ _ hne hg hch hmark
  have hid := fun n => RecvEvents_identityChan L T c c1 cl w n ce _ _ hne hg hch hmark
  refine ⟨by rw [heq 0]; rfl, by rw [heq 0]; rfl, by rw [hid 0]; rfl, ?_, ?_⟩
  · intro fuel
    exact ⟨by rw [heq fuel], by rw [heq fuel], hid fuel⟩
  · intro hquiet fuel
    rw [heq fuel]
    exact recvLoop_not_blocked L T hquiet fuel _ (Chan.send_wf _ _ _ hmark) (by simp)

end SessionLemmas

/-- C6, as the code has it: the get-or-create step of `RecvEvents`, run sequentially. If
the registry maps the address to a channel, that reference is used and the server is
unchanged. Otherwise, when `make` accepts `config.EventChanCapacity`, a new reference is
used: it denotes an empty channel of that capacity and is stored under the address; when
`make` panics on the capacity, nothing is stored and a session returns nil through the
deferred `recover`, the server unchanged. Whenever a reference is used, the entries of
every other address and the channels behind the existing references are unchanged, a
registry with one entry per address stays so, and a session of a non-empty identity
leaves the registry in that state. -/
theorem getOrCreate_spec (τ : Type) (L : Libs) (T : Transport τ) (c : BinaryGrpcServer)
    (address : String) :
    (∀ rv, c.Load address = some rv → getOrCreate L.MakeLimit c address = some (c, rv)) ∧
      (c.Load address = none →
        Chan.tryMake L.MakeLimit c.config.EventChanCapacity =
          some (Chan.make c.config.EventChanCapacity) →
        ∃ c1, getOrCreate L.MakeLimit c address = some (c1, c.chans.length) ∧
          c1.chanAt c.chans.length =
            some { cap := c.config.EventChanCapacity, buf := [] } ∧
          c1.Load address = some c.chans.length ∧
          c1.eventChanMap.map Prod.fst = c.eventChanMap.map Prod.fst ++ [address] ∧
          c1.config = c.config) ∧
      (c.Load address = none →
        Chan.tryMake L.MakeLimit c.config.EventChanCapacity = none →
        getOrCreate L.MakeLimit c address = none ∧
        ∀ (fuel : Nat) (cl : ClientInfo) (w : τ), cl.Address = address → address ≠ "" →
          RecvEvents L T fuel c (some cl) w =
            { srv := c, world := w, sends := [], status := .recovered }) ∧
      (∀ c1 ce, getOrCreate L.MakeLimit c address = some (c1, ce) →
        c1.Load address = some ce ∧
        (∀ other, other ≠ address → c1.Load other = c.Load other) ∧
        (∀ r ch, c.chanAt r = some ch → c1.chanAt r = some ch) ∧
        ((c.eventChanMap.map Prod.fst).Nodup → (c1.eventChanMap.map Prod.fst).Nodup) ∧
        (∀ (fuel : Nat) (cl : ClientInfo) (w : τ), cl.Address = address → address ≠ "" →
          (RecvEvents L T fuel c (some cl) w).srv.eventChanMap = c1.eventChanMap)) := by
  refine ⟨?_, ?_, ?_, ?_⟩
  · intro rv h
    simp [getOrCreate, h]
  · intro h hm
    rcases getOrCreate_cases L.MakeLimit c address with ⟨rv, h1, -⟩ | ⟨-, h1, -⟩ | ⟨-, -, h1⟩
    · rw [h] at h1; cases h1
    · rw [hm] at h1; cases h1
    · refine ⟨_, h1, ?_, ?_, ?_, rfl⟩
      · simp [BinaryGrpcServer.chanAt, Chan.make]
      · simp [BinaryGrpcServer.Load, syncMapLoad_store_self]
      · exact syncMapStore_keys_absent _ _ _ h
  · intro h hm
    refine ⟨by simp only [getOrCreate, h, hm], ?_⟩
    intro fuel cl w hcl hne
    subst hcl
    exact RecvEvents_recovered_when_out_of_range L T c cl w fuel hne h hm
  · intro c1 ce hg
    refine ⟨getOrCreate_load _ _ _ _ _ hg, ?_, ?_, ?_, ?_⟩
    · intro other hne
      rcases getOrCreate_cases L.MakeLimit c address with ⟨rv, -, h⟩ | ⟨-, -, h⟩ | ⟨-, -, h⟩
      · rw [h] at hg
        simp only [Option.some.injEq, Prod.mk.injEq] at hg
        rw [← hg.1]
      · rw [h] at hg; cases hg
      · rw [h] at hg
        simp only [Option.some.injEq, Prod.mk.injEq] at hg
        rw [← hg.1]
        simp [BinaryGrpcServer.Load, syncMapLoad_store_other _ _ _ _ hne]
    · intro r ch hr
      rcases getOrCreate_cases L.MakeLimit c address with ⟨rv, -, h⟩ | ⟨-, -, h⟩ | ⟨-, -, h⟩
      · rw [h] at hg
        simp only [Option.some.injEq, Prod.mk.injEq] at hg
        rw [← hg.1]; exact hr
      · rw [h] at hg; cases hg
      · rw [h] at hg
        simp only [Option.some.injEq, Prod.mk.injEq] at hg
        rw [← hg.1]
        have hlt := chanAt_lt c r ch hr
        simp only [BinaryGrpcServer.chanAt] at hr ⊢
        rw [List.getElem?_append_left hlt]
        exact hr
    · intro hnd
      rcases getOrCreate_cases L.MakeLimit c address with ⟨rv, -, h⟩ | ⟨-, -, h⟩ | ⟨hl, -, h⟩
      · rw [h] at hg
        simp only [Option.some.injEq, Prod.mk.injEq] at hg
        rw [← hg.1]; exact hnd
      · rw [h] at hg; cases hg
      · rw [h] at hg
        simp only [Option.some.injEq, Prod.mk.injEq] at hg
        rw [← hg.1]
        simp only
        rw [syncMapStore_keys_absent _ _ _ hl]
        have hnot := syncMapLoad_none_not_mem _ _ hl
        rw [List.nodup_append]
        refine ⟨hnd, List.nodup_singleton _, ?_⟩
        intro a ha hb
        simp only [List.mem_singleton] at hb
        subst hb
        exact hnot ha
    · intro fuel cl w hcl hne
      subst hcl
      exact RecvEvents_eventChanMap L T c c1 cl w fuel ce hne hg

/-! ## `SubscribeEvent` and `UnSubscribeEvent` -/

/-- The loop of `SubscribeEvent` makes the calls up to the first failure and returns the
error of that one. -/
theorem subscribeLoop_spec {σ : Type} (S : Subscriber σ) (addr : Address) (ce : Nat)
    (rs : Result) (evs : List String) (st : σ) (calls : List SubCall) :
    (subscribeLoop S addr ce rs evs st calls).err =
        firstFailure (subscribeAnswers S addr ce evs st) ∧
      (subscribeLoop S addr ce rs evs st calls).calls =
        calls ++ uptoFirstFailure (subscribeAnswers S addr ce evs st) := by
  induction evs generalizing st calls with
  | nil => simp [subscribeLoop, subscribeAnswers, firstFailure, uptoFirstFailure]
  | cons ev evs ih =>
    rcases hS : S.Subscribe st addr ev ce with ⟨r, st1⟩
    cases r with
    | some err =>
      simp [subscribeLoop, subscribeAnswers, firstFailure, uptoFirstFailure, hS]
    | none =>
      have := ih st1 (calls ++ [{ addr := addr, ev := ev, ce := some ce, result := none }])
      simp only [subscribeLoop, subscribeAnswers, firstFailure, uptoFirstFailure, hS]
      simpa using this

theorem firstFailure_eq_none (l : List SubCall) :
    firstFailure l = none ↔ ∀ x ∈ l, x.result = none := by
  induction l with
  | nil => simp [firstFailure]
  | cons x xs ih =>
    cases hx : x.result with
    | none => simp [firstFailure, hx, ih]
    | some err => simp [firstFailure, hx]

/-- The calls up to the first failure are the first calls of the list, as many as were
made. -/
theorem uptoFirstFailure_take (l : List SubCall) :
    uptoFirstFailure l = l.take (uptoFirstFailure l).length := by
  induction l with
  | nil => simp [uptoFirstFailure]
  | cons x xs ih =>
    unfold uptoFirstFailure
    split
    · simp
    · simp only [List.length_cons, List.take_succ_cons, List.cons.injEq, true_and]
      exact ih

theorem subscribeAnswers_events {σ : Type} (S : Subscriber σ) (addr : Address) (ce : Nat)
    (evs : List String) (st : σ) :
    (subscribeAnswers S addr ce evs st).map SubCall.ev = evs := by
  induction evs generalizing st with
  | nil => rfl
  | cons ev evs ih => simp [subscribeAnswers, ih]

/-- C8: the error that `SubscribeEvent` returns is the validation error when the address
is empty; otherwise the no-channel error when the registry has no channel for the
address; otherwise the error of the first call of `Subscriber.Subscribe` that fails, the
event types taken in list order, or nil when none fails. The calls made are none in the
first two cases and otherwise the calls up to and including the first failure, which are
for the first event types of the list. The error is nil exactly when the address is not
empty, the registry has a channel and no call fails. -/
theorem SubscribeEvent_error {σ : Type} (L : Libs) (S : Subscriber σ) (c : BinaryGrpcServer)
    (info : Option SubscribeInfo) (st : σ) :
    (SubscribeEvent L S c info st).err =
        (if SubscribeInfo.GetAddress info = "" then
          some (errors.New "client address can not be empty")
        else
          match c.Load (SubscribeInfo.GetAddress info) with
          | none => some (errors.New
              "failed to subscribe event since no server streaming channel found")
          | some ce =>
            firstFailure (subscribeAnswers S (L.HexToAddress (SubscribeInfo.GetAddress info))
              ce (SubscribeInfo.GetEvent info) st)) ∧
      (SubscribeEvent L S c info st).calls =
        (if SubscribeInfo.GetAddress info = "" then []
        else
          match c.Load (SubscribeInfo.GetAddress info) with
          | none => []
          | some ce =>
            uptoFirstFailure (subscribeAnswers S
              (L.HexToAddress (SubscribeInfo.GetAddress info)) ce
              (SubscribeInfo.GetEvent info) st)) ∧
      (SubscribeEvent L S c info st).calls.map SubCall.ev =
        (SubscribeInfo.GetEvent info).take (SubscribeEvent L S c info st).calls.length ∧
      ((SubscribeEvent L S c info st).err = none ↔
        SubscribeInfo.GetAddress info ≠ "" ∧
        ∃ ce, c.Load (SubscribeInfo.GetAddress info) = some ce ∧
          ∀ x ∈ subscribeAnswers S (L.HexToAddress (SubscribeInfo.GetAddress info)) ce
            (SubscribeInfo.GetEvent info) st, x.result = none) := by
  by_cases hne : SubscribeInfo.GetAddress info = ""
  · simp [SubscribeEvent, hne]
  · cases hl : c.Load (SubscribeInfo.GetAddress info) with
    | none => simp [SubscribeEvent, hne, hl]
    | some ce =>
      have h := subscribeLoop_spec S (L.HexToAddress (SubscribeInfo.GetAddress info)) ce
        (makeResult true "") (SubscribeInfo.GetEvent info) st []
      simp only [List.nil_append] at h
      have herr : (SubscribeEvent L S c info st).err =
          firstFailure (subscribeAnswers S (L.HexToAddress (SubscribeInfo.GetAddress info))
            ce (SubscribeInfo.GetEvent info) st) := by
        simp only [SubscribeEvent, hne, if_false, hl]
        exact h.1
      have hcalls : (SubscribeEvent L S c info st).calls =
          uptoFirstFailure (subscribeAnswers S (L.HexToAddress (SubscribeInfo.GetAddress info))
            ce (SubscribeInfo.GetEvent info) st) := by
        simp only [SubscribeEvent, hne, if_false, hl]
        exact h.2
      refine ⟨by simp only [hne, if_false]; exact herr,
        by simp only [hne, if_false]; exact hcalls, ?_, ?_⟩
      · rw [hcalls]
        conv_lhs => rw [uptoFirstFailure_take]
        rw [List.map_take, subscribeAnswers_events]
      · rw [herr, firstFailure_eq_none]
        simp [hne]

/-- A sample call of `SubscribeEvent`: the third event type repeats the first, so the third
call of `Subscribe` fails, its error is returned and `c` is never subscribed. -/
theorem SubscribeEvent_sample :
    (SubscribeEvent sampleLibs sampleSubscriber sampleServer
        (some ⟨"0xabc", ["a", "b", "a", "c"]⟩) []).err = some (errors.New "already subscribed") ∧
      (SubscribeEvent sampleLibs sampleSubscriber sampleServer
        (some ⟨"0xabc", ["a", "b", "a", "c"]⟩) []).calls.map SubCall.ev = ["a", "b", "a"] ∧
      (SubscribeEvent sampleLibs sampleSubscriber sampleServer
        (some ⟨"0xabc", ["a", "b", "a", "c"]⟩) []).sub = ["a", "b"] ∧
      (SubscribeEvent sampleLibs sampleSubscriber sampleServer
        (some ⟨"0xdef", ["a"]⟩) []).err =
        some (errors.New "failed to subscribe event since no server streaming channel found") ∧
      (SubscribeEvent sampleLibs sampleSubscriber sampleServer none []).err =
        some (errors.New "client address can not be empty") := by
  decide

/-- The loop of `UnSubscribeEvent` calls `UnSubscribe` for every event type of the list,
in list order, each call on the state that the previous one left, whatever it returned. -/
theorem unSubscribeLoop_spec {σ : Type} (S : Subscriber σ) (addr : Address)
    (evs : List String) (st : σ) (calls : List SubCall) :
    unSubscribeLoop S addr evs st calls =
      (evs.foldl (fun s ev => (S.UnSubscribe s addr ev).2) st,
        calls ++ unSubscribeAnswers S addr evs st) := by
  induction evs generalizing st calls with
  | nil => simp [unSubscribeLoop, unSubscribeAnswers]
  | cons ev evs ih =>
    simp only [unSubscribeLoop, unSubscribeAnswers, List.foldl_cons]
    rw [ih]
    simp

theorem unSubscribeAnswers_events {σ : Type} (S : Subscriber σ) (addr : Address)
    (evs : List String) (st : σ) :
    (unSubscribeAnswers S addr evs st).map (fun x => (x.addr, x.ev, x.ce)) =
      evs.map (fun ev => (addr, ev, none)) := by
  induction evs generalizing st with
  | nil => rfl
  | cons ev evs ih => simp [unSubscribeAnswers, ih]

/-- The call number `i` of the answers is the call of `UnSubscribe` for the event type
number `i`, on the state left by the calls for the event types before it. -/
theorem unSubscribeAnswers_getElem {σ : Type} (S : Subscriber σ) (addr : Address)
    (evs : List String) (st : σ) (i : Nat) :
    (unSubscribeAnswers S addr evs st)[i]? =
      evs[i]?.map (fun ev =>
        { addr := addr, ev := ev, ce := none,
          result := (S.UnSubscribe
            ((evs.take i).foldl (fun s e => (S.UnSubscribe s addr e).2) st) addr ev).1 }) := by
  induction evs generalizing st i with
  | nil => simp [unSubscribeAnswers]
  | cons ev evs ih =>
    cases i with
    | zero => simp [unSubscribeAnswers]
    | succ i =>
      simp only [unSubscribeAnswers, List.getElem?_cons_succ, List.take_succ_cons,
        List.foldl_cons]
      exact ih _ i

/-- C9: for a non-empty address, `UnSubscribeEvent` calls `Subscriber.UnSubscribe` once
for each event type of the list, in list order, whatever errors the earlier calls return,
and it returns a nil error: the call number `i` is the call of the subscriber for the
event type number `i` on the state that the calls for the earlier event types left, with
the result that the subscriber gave, and the subscriber ends in the state that all the
calls leave. -/
theorem UnSubscribeEvent_calls_every_event {σ : Type} (L : Libs) (S : Subscriber σ)
    (info : Option SubscribeInfo) (st : σ) (hne : SubscribeInfo.GetAddress info ≠ "") :
    (UnSubscribeEvent L S info st).err = none ∧
      (UnSubscribeEvent L S info st).calls.map (fun x => (x.addr, x.ev, x.ce)) =
        (SubscribeInfo.GetEvent info).map
          (fun ev => (L.HexToAddress (SubscribeInfo.GetAddress info), ev, none)) ∧
      (UnSubscribeEvent L S info st).calls.length = (SubscribeInfo.GetEvent info).length ∧
      (∀ i : Nat, (UnSubscribeEvent L S info st).calls[i]? =
        (SubscribeInfo.GetEvent info)[i]?.map (fun ev =>
          ({ addr := L.HexToAddress (SubscribeInfo.GetAddress info), ev := ev, ce := none,
             result := (S.UnSubscribe
               (((SubscribeInfo.GetEvent info).take i).foldl
                 (fun s e =>
                   (S.UnSubscribe s (L.HexToAddress (SubscribeInfo.GetAddress info)) e).2) st)
               (L.HexToAddress (SubscribeInfo.GetAddress info)) ev).1 } : SubCall))) ∧
      (UnSubscribeEvent L S info st).calls =
        unSubscribeAnswers S (L.HexToAddress (SubscribeInfo.GetAddress info))
          (SubscribeInfo.GetEvent info) st ∧
      (UnSubscribeEvent L S info st).sub =
        (SubscribeInfo.GetEvent info).foldl
          (fun s e => (S.UnSubscribe s (L.HexToAddress (SubscribeInfo.GetAddress info)) e).2)
          st := by
  have h := unSubscribeLoop_spec S (L.HexToAddress (SubscribeInfo.GetAddress info))
    (SubscribeInfo.GetEvent info) st []
  have hcalls : (UnSubscribeEvent L S info st).calls =
      unSubscribeAnswers S (L.HexToAddress (SubscribeInfo.GetAddress info))
        (SubscribeInfo.GetEvent info) st := by
    simp [UnSubscribeEvent, hne, h]
  have hsub : (UnSubscribeEvent L S info st).sub =
      (SubscribeInfo.GetEvent info).foldl
        (fun s e => (S.UnSubscribe s (L.HexToAddress (SubscribeInfo.GetAddress info)) e).2)
        st := by
    simp [UnSubscribeEvent, hne, h]
  refine ⟨by simp [UnSubscribeEvent, hne], ?_, ?_, ?_, hcalls, hsub⟩
  · rw [hcalls, unSubscribeAnswers_events]
  · have := congrArg List.length
      (unSubscribeAnswers_events S (L.HexToAddress (SubscribeInfo.GetAddress info))
        (SubscribeInfo.GetEvent info) st)
    rw [hcalls]
    simpa using this
  · intro i
    rw [hcalls]
    exact unSubscribeAnswers_getElem S _ _ st i

/-- C9 at a sample call: only `a` is subscribed, so the first call succeeds and removes
it, and the three calls after it fail and are made all the same. -/
theorem UnSubscribeEvent_calls_every_event_witness :
    (UnSubscribeEvent sampleLibs sampleSubscriber (some ⟨"0xabc", ["a", "b", "a", "c"]⟩)
        ["a"]).err = none ∧
      (UnSubscribeEvent sampleLibs sampleSubscriber (some ⟨"0xabc", ["a", "b", "a", "c"]⟩)
        ["a"]).calls =
        [⟨5, "a", none, none⟩, ⟨5, "b", none, some (errors.New "not subscribed")⟩,
          ⟨5, "a", none, some (errors.New "not subscribed")⟩,
          ⟨5, "c", none, some (errors.New "not subscribed")⟩] ∧
      (UnSubscribeEvent sampleLibs sampleSubscriber (some ⟨"0xabc", ["a", "b", "a", "c"]⟩)
        ["a"]).sub = [] :=
  have h := UnSubscribeEvent_calls_every_event sampleLibs sampleSubscriber
    (some ⟨"0xabc", ["a", "b", "a", "c"]⟩) ["a"] (by decide)
  ⟨h.1, h.2.2.2.2.1.trans (by decide), h.2.2.2.2.2.trans (by decide)⟩

/-- The loop of `SubscribeEvent` never touches `Success`; it sets `ErrMsg` to the message
of the error it returns. -/
theorem subscribeLoop_result {σ : Type} (S : Subscriber σ) (addr : Address) (ce : Nat)
    (rs : Result) (evs : List String) (st : σ) (calls : List SubCall) :
    (subscribeLoop S addr ce rs evs st calls).rs.Success = rs.Success ∧
      (∀ e, (subscribeLoop S addr ce rs evs st calls).err = some e →
        (subscribeLoop S addr ce rs evs st calls).rs.ErrMsg = e.msg) ∧
      ((subscribeLoop S addr ce rs evs st calls).err = none →
        (subscribeLoop S addr ce rs evs st calls).rs.ErrMsg = rs.ErrMsg) := by
  induction evs generalizing st calls with
  | nil => simp [subscribeLoop]
  | cons ev evs ih =>
    rcases hS : S.Subscribe st addr ev ce with ⟨r, st1⟩
    cases r with
    | some err => simp [subscribeLoop, hS]
    | none =>
      simp only [subscribeLoop, hS]
      exact ih st1 _

/-- On every path of `SubscribeEvent` the returned `Result` has `Success` true; its
`ErrMsg` is the message of the returned error, and empty when the error is nil. -/
theorem SubscribeEvent_result {σ : Type} (L : Libs) (S : Subscriber σ) (c : BinaryGrpcServer)
    (info : Option SubscribeInfo) (st : σ) :
    (SubscribeEvent L S c info st).rs.Success = true ∧
      (∀ e, (SubscribeEvent L S c info st).err = some e →
        (SubscribeEvent L S c info st).rs.ErrMsg = e.msg) ∧
      ((SubscribeEvent L S c info st).err = none →
        (SubscribeEvent L S c info st).rs.ErrMsg = "") := by
  by_cases hne : SubscribeInfo.GetAddress info = ""
  · simp [SubscribeEvent, hne, makeResult, errors.New]
  · cases hl : c.Load (SubscribeInfo.GetAddress info) with
    | none => simp [SubscribeEvent, hne, hl, makeResult, errors.New]
    | some ce =>
      have h := subscribeLoop_result S (L.HexToAddress (SubscribeInfo.GetAddress info)) ce
        (makeResult true "") (SubscribeInfo.GetEvent info) st []
      simp only [SubscribeEvent, hne, if_false, hl]
      exact h

/-- On every path of `UnSubscribeEvent` the returned `Result` has `Success` true; its
`ErrMsg` is the message of the returned error, and empty when the error is nil. -/
theorem UnSubscribeEvent_result {σ : Type} (L : Libs) (S : Subscriber σ)
    (info : Option SubscribeInfo) (st : σ) :
    (UnSubscribeEvent L S info st).rs.Success = true ∧
      (∀ e, (UnSubscribeEvent L S info st).err = some e →
        (UnSubscribeEvent L S info st).rs.ErrMsg = e.msg) ∧
      ((UnSubscribeEvent L S info st).err = none →
        (UnSubscribeEvent L S info st).rs.ErrMsg = "") := by
  by_cases hne : SubscribeInfo.GetAddress info = ""
  · simp [UnSubscribeEvent, hne, makeResult, errors.New]
  · simp [UnSubscribeEvent, hne, makeResult]

/-- C12 fails on the code: on each path that returns a non-nil error (an empty address in
`SubscribeEvent` and in `UnSubscribeEvent`, no channel for the address, a failing call of
`Subscribe`) the returned `Result` carries the error's message in `ErrMsg` but has
`Success` true, the value `makeResult(true,"")` gave it at the start. -/
theorem SubscribeEvent_error_result_keeps_success :
    (SubscribeEvent sampleLibs sampleSubscriber sampleServer (some ⟨"", ["a"]⟩) []).err =
        some (errors.New "client address can not be empty") ∧
      (SubscribeEvent sampleLibs sampleSubscriber sampleServer (some ⟨"", ["a"]⟩) []).rs =
        { Success := true, ErrMsg := "client address can not be empty" } ∧
      (UnSubscribeEvent sampleLibs sampleSubscriber (some ⟨"", ["a"]⟩) []).err =
        some (errors.New "client address can not be empty") ∧
      (UnSubscribeEvent sampleLibs sampleSubscriber (some ⟨"", ["a"]⟩) []).rs =
        { Success := true, ErrMsg := "client address can not be empty" } ∧
      (SubscribeEvent sampleLibs sampleSubscriber sampleServer (some ⟨"0xdef", ["a"]⟩) []).rs =
        { Success := true,
          ErrMsg := "failed to subscribe event since no server streaming channel found" } ∧
      (SubscribeEvent sampleLibs sampleSubscriber sampleServer (some ⟨"0xabc", ["a", "a"]⟩)
        []).err = some (errors.New "already subscribed") ∧
      (SubscribeEvent sampleLibs sampleSubscriber sampleServer (some ⟨"0xabc", ["a", "a"]⟩)
        []).rs = { Success := true, ErrMsg := "already subscribed" } := by
  decide

/-- C10 fails on the code: the duration passed to `time.After` is
`time.Microsecond * ScanEventInterval`, 200,000 nanoseconds, which is 200 microseconds
and not the 200 milliseconds (200,000,000 nanoseconds) of the constant's comment. -/
theorem idleTick_is_200_microseconds :
    idleTick = 200000 ∧ idleTick = 200 * time.Microsecond ∧
      idleTick ≠ 200000000 ∧ idleTick ≠ ScanEventInterval * time.Millisecond := by
  decide

/-- C7 fails on the code: two callers of the get-or-create for `0xabc` on a new server,
scheduled `Load`, `Load`, `Store`, `Store`. Both calls of `Load` find nothing, so each
caller makes a channel; the first caller holds channel 0, the second channel 1, and the
registry keeps only channel 1. -/
theorem openRun_race_two_channels :
    openRun sampleLibs.MakeLimit "0xabc" [0, 1, 0, 1]
        (BinaryGrpcServer.new ⟨4⟩, [.atLoad, .atLoad]) =
        ({ config := ⟨4⟩, eventChanMap := [("0xabc", 1)], chans := [Chan.make 4, Chan.make 4] },
          [.holds 0, .holds 1]) ∧
      (openRun sampleLibs.MakeLimit "0xabc" [0, 1, 0, 1]
        (BinaryGrpcServer.new ⟨4⟩, [.atLoad, .atLoad])).1.Load "0xabc" = some 1 ∧
      OpenPc.holds 0 ≠ OpenPc.holds 1 := by
  decide

/-- C1 at a sample session: the registry holds `[Transfer]` in a channel of capacity 4 for
`0xabc`, the session adds the marker, the stream fails the first send and a producer
writes `Approval` meanwhile; the session returns the error of the send and the channel
holds the marker, `Approval` and `Transfer`. -/
theorem RecvEvents_send_error_returns_and_keeps_events_witness :
    (RecvEvents sampleLibs crowdedTransport 3 sampleServer (some sampleClient) 0).status
      = .returned sampleSendError ∧
    identityChan
        (RecvEvents sampleLibs crowdedTransport 3 sampleServer (some sampleClient) 0).srv
        sampleClient.Address =
      some { cap := 4, buf := [makeChannelCreatedEvent, sampleApproval, sampleTransfer] } ∧
    ∃ buf, identityChan
        (RecvEvents sampleLibs crowdedTransport 3 sampleServer (some sampleClient) 0).srv
        sampleClient.Address = some { cap := 4, buf := buf } ∧
      sampleTransfer ∈ buf ∧
      (buf : Multiset Event) =
        ((sampleTransfer :: [makeChannelCreatedEvent] : List Event) : Multiset Event) +
          (([sampleApproval] : List Event) : Multiset Event) :=
  have h := RecvEvents_send_error_returns_and_keeps_events sampleLibs crowdedTransport
    sampleServer sampleClient 0 0 4 sampleTransfer [makeChannelCreatedEvent]
    { Time := 0, JsonData := "BlockNumber=10;ContractAddress=3;EventName=Transfer;TxHash=7;EventData=0;" }
    sampleSendError (by decide) (by decide) (by rfl) (by decide) (by decide) 2
  ⟨h.1, by decide, h.2.2⟩

/-- C1 as stated fails: the channel of `0xabc` has capacity 2 and holds `Transfer`; the
session adds the marker, which fills it, takes `Transfer`, and `srv.Send` fails; a
producer that was waiting with `Approval` takes the slot that the dequeue freed, so
`ce <- e` finds the channel full: the session is blocked and does not return the error,
however long it is run, and `Transfer` is not in the channel. -/
theorem RecvEvents_send_error_counterexample :
    (RecvEvents sampleLibs crowdedTransport 0 tightServer (some sampleClient) 0).status =
        .running ∧
      identityChan
          (RecvEvents sampleLibs crowdedTransport 0 tightServer (some sampleClient) 0).srv
          "0xabc" = some { cap := 2, buf := [sampleTransfer, makeChannelCreatedEvent] } ∧
      (RecvEvents sampleLibs crowdedTransport 1 tightServer (some sampleClient) 0).sends =
        [{ event := sampleTransfer,
           wire := { Time := 0, JsonData := "BlockNumber=10;ContractAddress=3;EventName=Transfer;TxHash=7;EventData=0;" },
           result := some sampleSendError }] ∧
      (RecvEvents sampleLibs crowdedTransport 1 tightServer (some sampleClient) 0).status =
        .blocked ∧
      (RecvEvents sampleLibs crowdedTransport 9 tightServer (some sampleClient) 0).status ≠
        .returned sampleSendError ∧
      identityChan
          (RecvEvents sampleLibs crowdedTransport 9 tightServer (some sampleClient) 0).srv
          "0xabc" = some { cap := 2, buf := [makeChannelCreatedEvent, sampleApproval] } ∧
      sampleTransfer ∉ [makeChannelCreatedEvent, sampleApproval] := by
  decide

/-- C2 at a sample session: the registry holds `[Transfer, Approval]` for `0xabc`, the
stream fails the first send; `Transfer` ends up behind `Approval` and the marker. -/
theorem RecvEvents_send_error_requeues_at_back_witness :
    identityChan
        (RecvEvents sampleLibs (sampleTransport 0) 1 busyServer (some sampleClient) 0).srv
        sampleClient.Address =
      some { cap := 4, buf := [sampleApproval, makeChannelCreatedEvent, sampleTransfer] } ∧
    (Chan.recv ⟨4, [sampleApproval, makeChannelCreatedEvent] ++ [sampleTransfer]⟩).map
      Prod.fst = some sampleApproval :=
  have h := RecvEvents_send_error_requeues_at_back sampleLibs (sampleTransport 0)
    steadyTransport busyServer sampleClient 0 0 4 sampleTransfer
    [sampleApproval, makeChannelCreatedEvent]
    { Time := 0, JsonData := "BlockNumber=10;ContractAddress=3;EventName=Transfer;TxHash=7;EventData=0;" }
    sampleSendError (by decide) (by decide) (by rfl) (by decide) (by decide) 0
  ⟨h.1, h.2.1⟩

/-- C2 as stated fails: with `[Transfer, Approval]` waiting and the send of `Transfer`
failing, the session returns the error and the next item dequeued from the identity's
channel is `Approval`, not `Transfer`; a later session sends `Approval` first and
`Transfer` third. -/
theorem RecvEvents_requeue_front_counterexample :
    (RecvEvents sampleLibs (sampleTransport 0) 1 busyServer (some sampleClient) 0).status =
      .returned sampleSendError ∧
    (RecvEvents sampleLibs (sampleTransport 0) 1 busyServer (some sampleClient) 0).sends.map
      SendCall.event = [sampleTransfer] ∧
    ((identityChan
        (RecvEvents sampleLibs (sampleTransport 0) 1 busyServer (some sampleClient) 0).srv
        "0xabc").bind Chan.recv).map Prod.fst = some sampleApproval ∧
    sampleApproval ≠ sampleTransfer ∧
    (RecvEvents sampleLibs steadyTransport 4
        (RecvEvents sampleLibs (sampleTransport 0) 1 busyServer (some sampleClient) 0).srv
        (some sampleClient) 0).sends.map SendCall.event =
      [sampleApproval, makeChannelCreatedEvent, sampleTransfer, makeChannelCreatedEvent] := by
  decide

/-- C3 at a sample loop: `Transfer` then `Approval` are enqueued into an empty channel of
capacity 4 and three iterations run over a stream that accepts every event. -/
theorem recvLoop_sends_in_enqueue_order_witness :
    (recvLoop sampleLibs steadyTransport 3
      ⟨⟨4, [sampleTransfer, sampleApproval]⟩, 0, [], .running⟩).sends.map SendCall.event =
      [sampleTransfer, sampleApproval] :=
  (recvLoop_sends_in_enqueue_order sampleLibs steadyTransport
    { ce := { cap := 4, buf := [] }, world := 0, sends := [], status := .running }
    sampleTransfer sampleApproval { cap := 4, buf := [sampleTransfer] }
    { cap := 4, buf := [sampleTransfer, sampleApproval] } 3 rfl (by decide) (by decide)
    (fun _ _ => rfl) (by decide)).1

/-- C4 at a sample loop: `Broken`, which `pickyLibs` cannot encode, is followed by
`Transfer`. -/
theorem recvIter_encode_error_drops_event_witness :
    (recvIter pickyLibs steadyTransport
      ⟨⟨4, [sampleBroken, sampleTransfer]⟩, 0, [], .running⟩).ce =
        { cap := 4, buf := [sampleTransfer] } ∧
    (recvLoop pickyLibs steadyTransport 2
      ⟨⟨4, [sampleBroken, sampleTransfer]⟩, 0, [], .running⟩).sends.map SendCall.event =
        [sampleTransfer] :=
  have h := recvIter_encode_error_drops_event pickyLibs steadyTransport
    ⟨⟨4, [sampleBroken, sampleTransfer]⟩, 0, [], .running⟩ sampleBroken [sampleTransfer]
    (errors.New "json: unsupported value") rfl rfl (by rfl)
  ⟨h.2.2.2.1, by
    rw [h.2.2.2.2.2 sampleTransfer []
      { Time := 0, JsonData := "BlockNumber=10;ContractAddress=3;EventName=Transfer;TxHash=7;EventData=0;" }
      rfl (by rfl)]
    rfl⟩

/-- C5 at a sample session: the first session of `0xabc` on a new server. -/
theorem RecvEvents_first_event_is_marker_witness :
    ((RecvEvents sampleLibs steadyTransport 2 (BinaryGrpcServer.new ⟨4⟩) (some sampleClient)
      0).sends.head?).map (fun x => x.event.Name) = some "ChannelCreated" := by
  have h := (RecvEvents_first_event_is_marker sampleLibs steadyTransport
    (BinaryGrpcServer.new ⟨4⟩) sampleClient 0 4 2 (by decide) (Or.inl ⟨rfl, rfl⟩)).2
    { Time := 0, JsonData := "BlockNumber=0;ContractAddress=0;EventName=ChannelCreated;TxHash=0;EventData=0;" }
    (by decide) (by decide) (fun _ => by decide) (by rfl)
  rw [h]
  rfl

/-- C5 as stated fails: when the channel of `0xabc` already holds the undelivered event
`Transfer`, the first event the session sends is `Transfer`; the marker comes second. -/
theorem RecvEvents_first_event_counterexample :
    (RecvEvents sampleLibs steadyTransport 5 sampleServer (some sampleClient) 0).sends.map
        (fun x => x.event.Name) = ["Transfer", "ChannelCreated"] ∧
      ((RecvEvents sampleLibs steadyTransport 5 sampleServer (some sampleClient)
        0).sends.head?).map (fun x => x.wire.JsonData) =
        some "BlockNumber=10;ContractAddress=3;EventName=Transfer;TxHash=7;EventData=0;" := by
  decide

/-- C6 at a sample server: `0xdef` has no channel on `sampleServer`, whose configured
capacity 4 `make` accepts; reference 1 is new and denotes an empty channel of capacity 4,
and the entry of `0xabc` is as it was. -/
theorem getOrCreate_spec_witness :
    ∃ c1, getOrCreate sampleLibs.MakeLimit sampleServer "0xdef" = some (c1, 1) ∧
      c1.chanAt 1 = some { cap := 4, buf := [] } ∧
      c1.Load "0xdef" = some 1 ∧
      c1.Load "0xabc" = some 0 :=
  have h := getOrCreate_spec Nat sampleLibs steadyTransport sampleServer "0xdef"
  have ⟨c1, h1, h2, h3, _, _⟩ := h.2.1 (by decide) (by decide)
  ⟨c1, h1, h2, h3, ((h.2.2.2 c1 1 h1).2.1 "0xabc" (by decide)).trans (by decide)⟩

/-- C6 as stated fails: on a new server whose configured capacity is the largest
`uint64`, `make` panics for the non-empty address `0xabc`: no channel is stored or used,
the registry stays empty and the session returns nil without sending anything. -/
theorem getOrCreate_counterexample :
    hugeServer.Load "0xabc" = none ∧
      getOrCreate sampleLibs.MakeLimit hugeServer "0xabc" = none ∧
      getOrCreate 18446744073709551615 hugeServer "0xabc" = none ∧
      (RecvEvents sampleLibs steadyTransport 5 hugeServer (some sampleClient) 0).status =
        .recovered ∧
      (RecvEvents sampleLibs steadyTransport 5 hugeServer (some sampleClient) 0).sends = [] ∧
      (RecvEvents sampleLibs steadyTransport 5 hugeServer (some sampleClient) 0).srv =
        hugeServer ∧
      (RecvEvents sampleLibs steadyTransport 5 hugeServer (some sampleClient) 0).srv.Load
        "0xabc" = none := by
  decide

/-- C11 at a sample session: the registry holds `[Transfer]` in a channel of capacity 4
for `0xabc`; the marker goes behind it and the session is in its loop. -/
theorem RecvEvents_reaches_loop_when_room_witness :
    (RecvEvents sampleLibs steadyTransport 0 sampleServer (some sampleClient) 0).status =
        .running ∧
      identityChan
          (RecvEvents sampleLibs steadyTransport 0 sampleServer (some sampleClient) 0).srv
          sampleClient.Address =
        some { cap := 4, buf := [sampleTransfer] ++ [makeChannelCreatedEvent] } :=
  have h := RecvEvents_reaches_loop_when_room sampleLibs steadyTransport sampleServer
    sampleClient 0 4 [sampleTransfer] (by decide) (Or.inr (by decide)) (by decide)
  ⟨h.1, h.2.2.1⟩

/-- C11 as stated fails: with `EventChanCapacity` 0 the first session of `0xabc` on a new
server blocks in the enqueue of the marker, and so does a session on the channel of
capacity 1 that already holds `Transfer`; with the largest `uint64` as capacity `make`
panics and the session returns nil. None of them reaches the loop or sends anything. -/
theorem RecvEvents_marker_enqueue_counterexample :
    (RecvEvents sampleLibs steadyTransport 5 (BinaryGrpcServer.new ⟨0⟩) (some sampleClient)
        0).status = .blocked ∧
      (RecvEvents sampleLibs steadyTransport 5 (BinaryGrpcServer.new ⟨0⟩) (some sampleClient)
        0).sends = [] ∧
      (RecvEvents sampleLibs steadyTransport 0 (BinaryGrpcServer.new ⟨0⟩) (some sampleClient)
        0).status ≠ .running ∧
      (RecvEvents sampleLibs steadyTransport 5 fullServer (some sampleClient) 0).status =
        .blocked ∧
      (RecvEvents sampleLibs steadyTransport 5 fullServer (some sampleClient) 0).sends = [] ∧
      identityChan
          (RecvEvents sampleLibs steadyTransport 5 fullServer (some sampleClient) 0).srv
          "0xabc" = some { cap := 1, buf := [sampleTransfer] } ∧
      (RecvEvents sampleLibs steadyTransport 5 hugeServer (some sampleClient) 0).status =
        .recovered ∧
      (RecvEvents sampleLibs steadyTransport 0 hugeServer (some sampleClient) 0).status ≠
        .running ∧
      (RecvEvents sampleLibs steadyTransport 5 hugeServer (some sampleClient) 0).sends = [] := by
  decide

end Dp
